import Mathlib

/-!
Formal model of the EDA helper functions in
introduction_eda_functions.ipynb: nan_processor, feature_cleaner,
get_feature and one_hot_encode, together with proofs of their
specification properties.

A pandas DataFrame is modelled as an ordered list of column names plus a
list of rows; each row is a (row-label, cells) pair, the label playing the
role of the DataFrame index entry.  Numeric cells are rationals (exact
arithmetic in place of floating point); mixed-type frames use an explicit
Cell type with a dedicated missing marker standing for np.nan.
-/

/-! ## Mixed-type frames and nan_processor -/

/-- A cell of a mixed-type DataFrame: a string, a number, or np.nan. -/
inductive Cell where
  | str (s : String)
  | num (q : ℚ)
  | nan
deriving DecidableEq, Repr

/-- A pandas DataFrame with arbitrary cells: ordered column names and
rows carrying their index label. -/
structure Frame where
  cols : List String
  rows : List (String × List Cell)
deriving DecidableEq, Repr

/-- One cell of `df.replace(replacement_str, np.nan)`. -/
def replaceCell (replacement_str c : Cell) : Cell :=
  if c = replacement_str then Cell.nan else c

/-- `tdf = df.replace(replacement_str, np.nan)` followed by
`tdf.dropna(axis=0, how='any')`: replace every occurrence of the
sentinel by the missing marker, then drop every row containing a missing
cell.  The original index labels are kept (no reset). -/
def nan_processor (df : Frame) (replacement_str : Cell) : Frame :=
  { cols := df.cols
    rows := (df.rows.map (fun r => (r.1, r.2.map (replaceCell replacement_str)))).filter
      (fun r => !(r.2.any (fun c => decide (c = Cell.nan)))) }

/-! ## one_hot_encode -/

/-- `[1 if label_to_encode == label else 0 for label in labels]`. -/
def one_hot_encode (label_to_encode : String) (labels : List String) : List Nat :=
  labels.map (fun label => if label_to_encode = label then 1 else 0)

lemma one_hot_length (l : String) (labels : List String) :
    (one_hot_encode l labels).length = labels.length := by
  simp [one_hot_encode]

lemma one_hot_getD (l : String) (labels : List String) (i : Fin labels.length) :
    (one_hot_encode l labels).getD i 0 = if labels.get i = l then 1 else 0 := by
  have hlt : (i : ℕ) < (one_hot_encode l labels).length := by
    simp [one_hot_length]
  rw [List.getD_eq_getElem _ _ hlt]
  simp [one_hot_encode, eq_comm]

lemma one_hot_sum (l : String) (labels : List String) :
    (one_hot_encode l labels).sum = labels.count l := by
  induction labels with
  | nil => rfl
  | cons a t ih =>
    by_cases h : l = a <;>
      simp [one_hot_encode, List.count_cons, h, Ne.symm, eq_comm] at ih ⊢ <;>
      omega

/-- C5: for a label and a list of unique candidate labels, one_hot_encode
returns a list of the same length with a 1 exactly at the positions where
the candidate equals the label and 0 elsewhere; an absent label gives all
zeros, the sum is 1 when the label occurs exactly once and 0 when absent,
and the two worked examples evaluate as documented. -/
theorem one_hot_encode_spec (l : String) (labels : List String) (hu : labels.Nodup) :
    (one_hot_encode l labels).length = labels.length
    ∧ (∀ i : Fin labels.length,
        (one_hot_encode l labels).getD i 0 = if labels.get i = l then 1 else 0)
    ∧ (l ∉ labels → ∀ x ∈ one_hot_encode l labels, x = 0)
    ∧ (labels.count l = 1 → (one_hot_encode l labels).sum = 1)
    ∧ (l ∉ labels → (one_hot_encode l labels).sum = 0)
    ∧ one_hot_encode "pink" ["blue", "red", "pink", "yellow"] = [0, 0, 1, 0]
    ∧ one_hot_encode "f" ["a", "b", "c", "d", "e"] = [0, 0, 0, 0, 0] := by
  refine ⟨one_hot_length l labels, one_hot_getD l labels, ?_, ?_, ?_,
    by simp [one_hot_encode], by simp [one_hot_encode]⟩
  · intro h x hx
    simp only [one_hot_encode, List.mem_map] at hx
    obtain ⟨a, ha, rfl⟩ := hx
    rw [if_neg]
    rintro rfl
    exact h ha
  · intro h
    rw [one_hot_sum, h]
  · intro h
    rw [one_hot_sum, List.count_eq_zero.mpr h]

theorem one_hot_encode_spec_witness :
    (["a", "b"] : List String).Nodup
    ∧ ((one_hot_encode "a" ["a", "b"]).length = (["a", "b"] : List String).length
       ∧ (∀ i : Fin (["a", "b"] : List String).length,
           (one_hot_encode "a" ["a", "b"]).getD i 0
             = if (["a", "b"] : List String).get i = "a" then 1 else 0)
       ∧ ("a" ∉ (["a", "b"] : List String) → ∀ x ∈ one_hot_encode "a" ["a", "b"], x = 0)
       ∧ ((["a", "b"] : List String).count "a" = 1 → (one_hot_encode "a" ["a", "b"]).sum = 1)
       ∧ ("a" ∉ (["a", "b"] : List String) → (one_hot_encode "a" ["a", "b"]).sum = 0)
       ∧ one_hot_encode "pink" ["blue", "red", "pink", "yellow"] = [0, 0, 1, 0]
       ∧ one_hot_encode "f" ["a", "b", "c", "d", "e"] = [0, 0, 0, 0, 0]) :=
  ⟨by decide, one_hot_encode_spec "a" ["a", "b"] (by decide)⟩

/-- C10: one_hot_encode is total and purely positional: for every label and
every candidate list, including lists with duplicates, position i of the
output is 1 exactly when candidate i equals the label; with a duplicated
candidate every matching position gets a 1. -/
theorem one_hot_encode_duplicates (l : String) (labels : List String) :
    (one_hot_encode l labels).length = labels.length
    ∧ (∀ i : Fin labels.length,
        (one_hot_encode l labels).getD i 0 = if labels.get i = l then 1 else 0)
    ∧ one_hot_encode "a" ["a", "b", "a"] = [1, 0, 1] :=
  ⟨one_hot_length l labels, one_hot_getD l labels, by simp [one_hot_encode]⟩

lemma map_eq_self_of {α : Type} (f : α → α) (l : List α) (h : ∀ a ∈ l, f a = a) :
    l.map f = l := by
  induction l with
  | nil => rfl
  | cons a t ih =>
    simp only [List.map_cons, h a (List.mem_cons_self a t)]
    rw [ih (fun b hb => h b (List.mem_cons_of_mem a hb))]

lemma nan_processor_cells (df : Frame) (s : Cell) :
    ∀ r ∈ (nan_processor df s).rows, ∀ c ∈ r.2, c ≠ Cell.nan ∧ c ≠ s := by
  intro r hr c hc
  simp only [nan_processor, List.mem_filter, List.mem_map] at hr
  obtain ⟨⟨r0, hr0, rfl⟩, hpass⟩ := hr
  simp only [Bool.not_eq_true', List.any_eq_false, decide_eq_true_eq] at hpass
  have hnan := hpass c hc
  refine ⟨hnan, ?_⟩
  obtain ⟨c0, hc0, rfl⟩ := List.mem_map.mp hc
  by_cases h : c0 = s
  · simp [replaceCell, h] at hnan
  · simp only [replaceCell, if_neg h]
    exact h

lemma nan_processor_row_pass (df : Frame) (s : Cell) (r : String × List Cell)
    (h : ∀ c ∈ r.2, c ≠ Cell.nan) :
    (!(r.2.any (fun c => decide (c = Cell.nan)))) = true := by
  simp only [Bool.not_eq_true', List.any_eq_false, decide_eq_true_eq]
  exact h

/-- C7: nan_processor is idempotent: applying it twice with the same
sentinel gives the same frame as applying it once, because the first
application leaves no missing cell and no occurrence of the sentinel. -/
theorem nan_processor_idempotent (df : Frame) (s : Cell) :
    nan_processor (nan_processor df s) s = nan_processor df s := by
  have hcells := nan_processor_cells df s
  have hmap : (nan_processor df s).rows.map
      (fun r => (r.1, r.2.map (replaceCell s))) = (nan_processor df s).rows := by
    apply map_eq_self_of
    intro r hr
    have : r.2.map (replaceCell s) = r.2 := by
      apply map_eq_self_of
      intro c hc
      simp [replaceCell, (hcells r hr c hc).2]
    rw [this]
  have hfilter : (nan_processor df s).rows.filter
      (fun r => !(r.2.any (fun c => decide (c = Cell.nan)))) = (nan_processor df s).rows := by
    apply List.filter_eq_self.mpr
    intro r hr
    exact nan_processor_row_pass df s r (fun c hc => (hcells r hr c hc).1)
  show Frame.mk ((nan_processor df s).cols)
      ((((nan_processor df s).rows.map
          (fun r => (r.1, r.2.map (replaceCell s)))).filter
        (fun r => !(r.2.any (fun c => decide (c = Cell.nan)))))) = nan_processor df s
  rw [hmap, hfilter]

/-- A frame whose single row has a pre-existing missing cell and no
occurrence of the sentinel "blah". -/
def exFrameNan : Frame :=
  { cols := ["A"], rows := [("r0", [Cell.nan])] }

/-- C4 counterexample: in exFrameNan the only row contains no cell equal
to the sentinel, yet nan_processor drops it, because the pre-existing
missing cell alone forces the drop.  So "a row survives iff none of its
original cells equal s" fails as stated. -/
theorem nan_processor_counterexample :
    exFrameNan.rows = [("r0", [Cell.nan])]
    ∧ Cell.nan ≠ Cell.str "blah"
    ∧ (nan_processor exFrameNan (Cell.str "blah")).rows = [] := by
  refine ⟨rfl, by decide, ?_⟩
  simp [nan_processor, exFrameNan, replaceCell]

/-- C4 (amended): for a frame with distinct row labels, the output of
nan_processor contains no missing cell and no occurrence of the sentinel,
and a row of the input survives (its label appears in the output) iff
none of its original cells equals the sentinel and none is already
missing. -/
theorem nan_processor_spec (df : Frame) (s : Cell)
    (hn : (df.rows.map Prod.fst).Nodup) :
    (∀ r ∈ (nan_processor df s).rows, ∀ c ∈ r.2, c ≠ Cell.nan ∧ c ≠ s)
    ∧ (∀ r ∈ df.rows,
        ((∃ r2 ∈ (nan_processor df s).rows, r2.1 = r.1)
          ↔ (∀ c ∈ r.2, c ≠ s ∧ c ≠ Cell.nan))) := by
  refine ⟨nan_processor_cells df s, ?_⟩
  intro r hr
  constructor
  · rintro ⟨r2, hr2, hlab⟩
    intro c hc
    have hcases := nan_processor_cells df s r2 hr2
    simp only [nan_processor, List.mem_filter, List.mem_map] at hr2
    obtain ⟨⟨r0, hr0, rfl⟩, hpass⟩ := hr2
    have hr0r : r0 = r := List.inj_on_of_nodup_map hn hr0 hr hlab
    subst hr0r
    have hmem : replaceCell s c ∈ r0.2.map (replaceCell s) := List.mem_map_of_mem _ hc
    have := hcases (replaceCell s c) hmem
    constructor
    · rintro rfl
      exact this.1 (by simp [replaceCell])
    · rintro rfl
      by_cases h : Cell.nan = s
      · exact this.2 (by simp [replaceCell, h])
      · exact this.1 (by simp [replaceCell, h])
  · intro h
    refine ⟨(r.1, r.2.map (replaceCell s)), ?_, rfl⟩
    simp only [nan_processor, List.mem_filter, List.mem_map]
    refine ⟨⟨r, hr, rfl⟩, ?_⟩
    apply nan_processor_row_pass df s (r.1, r.2.map (replaceCell s))
    intro c hc
    obtain ⟨c0, hc0, rfl⟩ := List.mem_map.mp hc
    by_cases hcs : c0 = s
    · exact absurd hcs (h c0 hc0).1
    · simp only [replaceCell, if_neg hcs]
      exact (h c0 hc0).2

/-- A concrete frame matching the nan_processor docstring example shape. -/
def exFrameBlah : Frame :=
  { cols := ["A", "B"]
    rows := [("0", [Cell.num 5, Cell.str "blah"]), ("1", [Cell.num 2, Cell.num 1])] }

theorem nan_processor_spec_witness :
    (exFrameBlah.rows.map Prod.fst).Nodup
    ∧ ((∀ r ∈ (nan_processor exFrameBlah (Cell.str "blah")).rows, ∀ c ∈ r.2,
          c ≠ Cell.nan ∧ c ≠ Cell.str "blah")
       ∧ (∀ r ∈ exFrameBlah.rows,
           ((∃ r2 ∈ (nan_processor exFrameBlah (Cell.str "blah")).rows, r2.1 = r.1)
             ↔ (∀ c ∈ r.2, c ≠ Cell.str "blah" ∧ c ≠ Cell.nan)))) :=
  ⟨by decide, nan_processor_spec exFrameBlah (Cell.str "blah") (by decide)⟩

/-! ## Numeric frames and feature_cleaner -/

/-- A pandas DataFrame with numeric cells only: ordered column names and
rows carrying their index label; cell j of a row belongs to column j. -/
structure NumFrame where
  cols : List String
  rows : List (String × List ℚ)
deriving DecidableEq, Repr

/-- Insert a value into an ascending list, keeping it ascending. -/
def insertAsc (x : ℚ) : List ℚ → List ℚ
  | [] => [x]
  | y :: t => if x ≤ y then x :: y :: t else y :: insertAsc x t

/-- Sort a list of rationals ascending (insertion sort). -/
def sortAsc : List ℚ → List ℚ
  | [] => []
  | x :: t => insertAsc x (sortAsc t)

/-- The pandas linear-interpolation quantile of a column, for 0 ≤ q ≤ 1:
with the n values sorted ascending and h = q * (n - 1), the quantile is
s[floor h] + (h - floor h) * (s[floor h + 1] - s[floor h]).  pandas
raises for q outside [0, 1]; feature_cleaner checks that separately.  On
an empty column pandas yields NaN, and then no row exists to compare
against it, so the value returned here is never used. -/
def quantileVal (xs : List ℚ) (q : ℚ) : ℚ :=
  let s := sortAsc xs
  let h := q * ((s.length : ℚ) - 1)
  let i := (⌊h⌋).toNat
  let lo := s.getD i 0
  let hi := s.getD (i + 1) lo
  lo + (h - (i : ℚ)) * (hi - lo)

/-- Column j of a list of labelled rows. -/
def colOf (rows : List (String × List ℚ)) (j : ℕ) : List ℚ :=
  rows.map (fun r => r.2.getD j 0)

/-- Column j of the frame (the pre-filter column). -/
def colVals (df : NumFrame) (j : ℕ) : List ℚ :=
  colOf df.rows j

/-- The rows kept by `df[msk_in_range].dropna(axis=0, how='any')` where
`msk_in_range = (quantile.iloc[0] < df) & (df < quantile.iloc[1])`: a row
survives iff in every column its value lies strictly between the low and
the high quantile of that (pre-filter) column; a cell equal to a quantile
boundary is masked to NaN and its whole row is dropped. -/
def surviveRows (df : NumFrame) (low high : ℚ) : List (String × List ℚ) :=
  df.rows.filter (fun r =>
    (List.range df.cols.length).all (fun j =>
      decide (quantileVal (colVals df j) low < r.2.getD j 0)
        && decide (r.2.getD j 0 < quantileVal (colVals df j) high)))

/-- Mean of a column, as in `new_df.mean()`. -/
def listMean (xs : List ℚ) : ℚ :=
  xs.sum / (xs.length : ℚ)

/-- Sample variance (pandas ddof = 1), the square of `new_df.std()`. -/
def sampleVar (xs : List ℚ) : ℚ :=
  (xs.map (fun x => (x - listMean xs) ^ 2)).sum / ((xs.length : ℚ) - 1)

/-- A standardized frame: the result cells of `(new_df - new_df.mean()) /
new_df.std()` are reals, with none standing for a NaN produced by the
scaling step. -/
structure StdFrame where
  cols : List String
  rows : List (String × List (Option ℝ))

/-- One scaled cell `(x - mean) / std` over a survivor column with n
rows, mean m and sample variance v.  pandas produces NaN (none here)
when n ≤ 1 (`std()` is NaN with ddof = 1) or when the survivor column is
constant (`std()` is 0, and the numerator x - m is 0 too, giving 0/0). -/
noncomputable def stdCell (n : ℕ) (m v x : ℚ) : Option ℝ :=
  if n ≤ 1 ∨ v = 0 then none
  else some (((x : ℝ) - (m : ℝ)) / Real.sqrt (v : ℝ))

/-- The rows of the cleaned frame: every survivor row, each cell scaled
by its survivor column's mean and sample standard deviation. -/
noncomputable def cleanedRows (df : NumFrame) (low high : ℚ) :
    List (String × List (Option ℝ)) :=
  let sv := surviveRows df low high
  sv.map (fun r =>
    (r.1, (List.range df.cols.length).map (fun j =>
      stdCell sv.length (listMean (colOf sv j)) (sampleVar (colOf sv j)) (r.2.getD j 0))))

/-- `feature_cleaner(df, low, high)`: `df.quantile([low, high])` raises
iff low or high lies outside [0, 1] (modelled as none); otherwise cells
outside the strict per-column quantile range are masked to NaN, rows
containing NaN are dropped, and the remaining columns are scaled to zero
mean and unit variance.  No other validation of low and high happens. -/
noncomputable def feature_cleaner (df : NumFrame) (low high : ℚ) : Option StdFrame :=
  if low < 0 ∨ 1 < low ∨ high < 0 ∨ 1 < high then none
  else some { cols := df.cols, rows := cleanedRows df low high }

/-- A small concrete numeric frame. -/
def exNumFrame : NumFrame :=
  { cols := ["x"], rows := [("r0", [0]), ("r1", [1]), ("r2", [2]), ("r3", [10])] }

/-- C9 counterexample: with low = 6/10 and high = 4/10, both inside
(0, 1) but with low ≥ high, feature_cleaner does not signal an invalid
input: it silently returns a frame. -/
theorem feature_cleaner_no_low_high_check :
    (0 : ℚ) < 6/10 ∧ (6/10 : ℚ) < 1 ∧ (0 : ℚ) < 4/10 ∧ (4/10 : ℚ) < 1
    ∧ (4/10 : ℚ) ≤ 6/10
    ∧ (feature_cleaner exNumFrame (6/10) (4/10)).isSome = true := by
  refine ⟨by norm_num, by norm_num, by norm_num, by norm_num, by norm_num, ?_⟩
  rw [feature_cleaner, if_neg (by norm_num)]
  rfl

/-- C9 (amended): feature_cleaner rejects exactly the thresholds on which
`df.quantile([low, high])` raises, namely low or high outside [0, 1]; it
performs no other validation, so inverted thresholds (low ≥ high) inside
[0, 1], and the boundary values 0 and 1 themselves, are accepted and
produce a frame instead of an error. -/
theorem feature_cleaner_threshold_validation (df : NumFrame) (low high : ℚ) :
    feature_cleaner df low high = none
      ↔ (low < 0 ∨ 1 < low ∨ high < 0 ∨ 1 < high) := by
  unfold feature_cleaner
  split_ifs with h
  · simp [h]
  · simp [h]

/-- C8: both filters return the column list unchanged and the index
labels of the surviving rows form a sublist of the original index labels:
each surviving row keeps its index label, in the original order, with no
renumbering. -/
theorem filters_preserve_index_and_columns (df : Frame) (s : Cell)
    (ndf : NumFrame) (low high : ℚ) :
    (nan_processor df s).cols = df.cols
    ∧ ((nan_processor df s).rows.map Prod.fst).Sublist (df.rows.map Prod.fst)
    ∧ (∀ out, feature_cleaner ndf low high = some out →
        out.cols = ndf.cols
          ∧ (out.rows.map Prod.fst).Sublist (ndf.rows.map Prod.fst)) := by
  refine ⟨rfl, ?_, ?_⟩
  · have h1 : ((df.rows.map (fun r => (r.1, r.2.map (replaceCell s)))).filter
        (fun r => !(r.2.any (fun c => decide (c = Cell.nan))))).Sublist
        (df.rows.map (fun r => (r.1, r.2.map (replaceCell s)))) := List.filter_sublist _
    have h2 := h1.map Prod.fst
    rw [List.map_map] at h2
    simpa [nan_processor] using h2
  · intro out hout
    rw [feature_cleaner] at hout
    split_ifs at hout
    obtain rfl : ({ cols := ndf.cols, rows := cleanedRows ndf low high } : StdFrame) = out :=
      Option.some.inj hout
    refine ⟨rfl, ?_⟩
    have h1 : (surviveRows ndf low high).Sublist ndf.rows := List.filter_sublist _
    have h2 := h1.map Prod.fst
    have h3 : (cleanedRows ndf low high).map Prod.fst
        = (surviveRows ndf low high).map Prod.fst := by
      rw [cleanedRows, List.map_map]
      rfl
    rw [h3]
    exact h2

lemma survive_mem_iff (df : NumFrame) (low high : ℚ)
    (hn : (df.rows.map Prod.fst).Nodup) (r : String × List ℚ) (hr : r ∈ df.rows) :
    (∃ r2 ∈ surviveRows df low high, r2.1 = r.1)
      ↔ (∀ j < df.cols.length,
          quantileVal (colVals df j) low < r.2.getD j 0
            ∧ r.2.getD j 0 < quantileVal (colVals df j) high) := by
  constructor
  · rintro ⟨r2, hr2, hlab⟩
    rw [surviveRows, List.mem_filter] at hr2
    obtain ⟨hmem, hpass⟩ := hr2
    have hre : r2 = r := List.inj_on_of_nodup_map hn hmem hr hlab
    subst hre
    intro j hj
    simp only [List.all_eq_true, List.mem_range, Bool.and_eq_true, decide_eq_true_eq] at hpass
    exact hpass j hj
  · intro h
    refine ⟨r, ?_, rfl⟩
    rw [surviveRows, List.mem_filter]
    refine ⟨hr, ?_⟩
    simp only [List.all_eq_true, List.mem_range, Bool.and_eq_true, decide_eq_true_eq]
    exact h

lemma cleaned_label_iff (df : NumFrame) (low high : ℚ) (a : String) :
    (∃ r2 ∈ cleanedRows df low high, r2.1 = a)
      ↔ (∃ r0 ∈ surviveRows df low high, r0.1 = a) := by
  simp only [cleanedRows]
  constructor
  · rintro ⟨r2, hr2, hlab⟩
    obtain ⟨r0, hr0, rfl⟩ := List.mem_map.mp hr2
    exact ⟨r0, hr0, hlab⟩
  · rintro ⟨r0, hr0, hlab⟩
    exact ⟨_, List.mem_map_of_mem _ hr0, hlab⟩

/-- C1: for thresholds 0 < low < high < 1 (and distinct row labels),
feature_cleaner succeeds, and a row survives into the output iff in every
column its value lies strictly between the column's low and high
linear-interpolation quantiles, both computed on the pre-filter column.
In particular every retained cell is strictly inside the quantile range,
a cell exactly equal to either quantile is excluded, and a single
out-of-range cell drops its whole row. -/
theorem feature_cleaner_percentile_trim (df : NumFrame) (low high : ℚ)
    (hlow : 0 < low) (hlh : low < high) (hhigh : high < 1)
    (hn : (df.rows.map Prod.fst).Nodup) :
    ∃ out, feature_cleaner df low high = some out
      ∧ ∀ r ∈ df.rows,
          ((∃ r2 ∈ out.rows, r2.1 = r.1)
            ↔ ∀ j < df.cols.length,
                quantileVal (colVals df j) low < r.2.getD j 0
                  ∧ r.2.getD j 0 < quantileVal (colVals df j) high) := by
  have hcond : ¬(low < 0 ∨ 1 < low ∨ high < 0 ∨ 1 < high) := by
    push_neg
    exact ⟨by linarith, by linarith, by linarith, by linarith⟩
  refine ⟨{ cols := df.cols, rows := cleanedRows df low high }, ?_, ?_⟩
  · rw [feature_cleaner, if_neg hcond]
  · intro r hr
    exact (cleaned_label_iff df low high r.1).trans (survive_mem_iff df low high hn r hr)

theorem feature_cleaner_percentile_trim_witness :
    ((0 : ℚ) < 1/4 ∧ (1/4 : ℚ) < 3/4 ∧ (3/4 : ℚ) < 1
      ∧ (exNumFrame.rows.map Prod.fst).Nodup)
    ∧ (∃ out, feature_cleaner exNumFrame (1/4) (3/4) = some out
        ∧ ∀ r ∈ exNumFrame.rows,
            ((∃ r2 ∈ out.rows, r2.1 = r.1)
              ↔ ∀ j < exNumFrame.cols.length,
                  quantileVal (colVals exNumFrame j) (1/4) < r.2.getD j 0
                    ∧ r.2.getD j 0 < quantileVal (colVals exNumFrame j) (3/4))) :=
  ⟨⟨by norm_num, by norm_num, by norm_num, by decide⟩,
    feature_cleaner_percentile_trim exNumFrame (1/4) (3/4)
      (by norm_num) (by norm_num) (by norm_num) (by decide)⟩

/-! ## Standardization facts -/

/-- Column j of a standardized frame's rows. -/
def colOfStd (rows : List (String × List (Option ℝ))) (j : ℕ) : List (Option ℝ) :=
  rows.map (fun r => r.2.getD j none)

/-- Mean of a list of reals. -/
noncomputable def listMeanR (xs : List ℝ) : ℝ := xs.sum / xs.length

/-- Sample variance of a list of reals (ddof = 1). -/
noncomputable def sampleVarR (xs : List ℝ) : ℝ :=
  (xs.map (fun x => (x - listMeanR xs) ^ 2)).sum / ((xs.length : ℝ) - 1)

lemma sum_map_cast_sub (xs : List ℚ) (c : ℝ) :
    (xs.map (fun x : ℚ => (x : ℝ) - c)).sum = ((xs.sum : ℚ) : ℝ) - xs.length * c := by
  induction xs with
  | nil => simp
  | cons a t ih =>
    simp only [List.map_cons, List.sum_cons, ih, List.length_cons, List.sum_cons]
    push_cast
    ring

lemma sum_map_mul_const (xs : List ℚ) (f : ℚ → ℝ) (c : ℝ) :
    (xs.map (fun x => f x * c)).sum = (xs.map f).sum * c := by
  induction xs with
  | nil => simp
  | cons a t ih =>
    simp only [List.map_cons, List.sum_cons, ih]
    ring

lemma sum_map_sq_cast (xs : List ℚ) (m : ℚ) :
    (xs.map (fun x : ℚ => ((x : ℝ) - (m : ℝ)) ^ 2)).sum
      = (((xs.map (fun x => (x - m) ^ 2)).sum : ℚ) : ℝ) := by
  induction xs with
  | nil => simp
  | cons a t ih =>
    simp only [List.map_cons, List.sum_cons, ih]
    push_cast
    ring

lemma two_le_length_of_two_mem {α : Type} (xs : List α) (a b : α)
    (ha : a ∈ xs) (hb : b ∈ xs) (hab : a ≠ b) : 2 ≤ xs.length := by
  match xs with
  | [] => cases ha
  | [x] =>
    rw [List.mem_singleton] at ha hb
    exact absurd (ha.trans hb.symm) hab
  | x :: y :: t =>
    simp only [List.length_cons]
    omega

lemma sum_sq_dev_pos (xs : List ℚ)
    (hnc : ∃ a ∈ xs, ∃ b ∈ xs, a ≠ b) :
    0 < (xs.map (fun x => (x - listMean xs) ^ 2)).sum := by
  obtain ⟨a, ha, b, hb, hab⟩ := hnc
  have key : ∃ c ∈ xs, c ≠ listMean xs := by
    by_cases h : a = listMean xs
    · exact ⟨b, hb, fun hh => hab (h.trans hh.symm)⟩
    · exact ⟨a, ha, h⟩
  obtain ⟨c, hc, hcm⟩ := key
  have hmem : (c - listMean xs) ^ 2 ∈ xs.map (fun x => (x - listMean xs) ^ 2) :=
    List.mem_map_of_mem _ hc
  have hsub : c - listMean xs ≠ 0 := sub_ne_zero.mpr hcm
  have hpos : 0 < (c - listMean xs) ^ 2 :=
    lt_of_le_of_ne (sq_nonneg _) (Ne.symm (pow_ne_zero 2 hsub))
  have hnn : ∀ y ∈ xs.map (fun x => (x - listMean xs) ^ 2), 0 ≤ y := by
    intro y hy
    obtain ⟨x, hx, rfl⟩ := List.mem_map.mp hy
    exact sq_nonneg _
  exact lt_of_lt_of_le hpos (List.single_le_sum hnn _ hmem)

lemma sampleVar_pos (xs : List ℚ) (h2 : 2 ≤ xs.length)
    (hS : 0 < (xs.map (fun x => (x - listMean xs) ^ 2)).sum) :
    0 < sampleVar xs := by
  have hn2 : (2 : ℚ) ≤ (xs.length : ℚ) := by exact_mod_cast h2
  rw [sampleVar]
  apply div_pos hS
  linarith

lemma standardize_mean_var (xs : List ℚ) (h2 : 2 ≤ xs.length)
    (hS : 0 < (xs.map (fun x => (x - listMean xs) ^ 2)).sum) :
    listMeanR (xs.map (fun x : ℚ =>
        ((x : ℝ) - (listMean xs : ℝ)) / Real.sqrt (sampleVar xs : ℝ))) = 0
    ∧ sampleVarR (xs.map (fun x : ℚ =>
        ((x : ℝ) - (listMean xs : ℝ)) / Real.sqrt (sampleVar xs : ℝ))) = 1 := by
  have hn2 : (2 : ℚ) ≤ (xs.length : ℚ) := by exact_mod_cast h2
  have hnne : ((xs.length : ℚ)) ≠ 0 := by linarith
  have hvpos : 0 < sampleVar xs := sampleVar_pos xs h2 hS
  have hvR : (0 : ℝ) < ((sampleVar xs : ℚ) : ℝ) := by exact_mod_cast hvpos
  have hsqrt : 0 < Real.sqrt (sampleVar xs : ℝ) := Real.sqrt_pos.mpr hvR
  have hsum0 : (xs.map (fun x : ℚ => ((x : ℝ) - (listMean xs : ℝ)))).sum = 0 := by
    rw [sum_map_cast_sub]
    have hms : (listMean xs) * (xs.length : ℚ) = xs.sum := by
      rw [listMean, div_mul_cancel₀ _ hnne]
    have hc : ((xs.sum : ℚ) : ℝ) = (listMean xs : ℝ) * ((xs.length : ℕ) : ℝ) := by
      exact_mod_cast congrArg (fun q : ℚ => (q : ℝ)) hms.symm
    rw [hc]
    ring
  have hfun : (fun x : ℚ =>
        ((x : ℝ) - (listMean xs : ℝ)) / Real.sqrt (sampleVar xs : ℝ))
      = (fun x : ℚ =>
        ((x : ℝ) - (listMean xs : ℝ)) * (Real.sqrt (sampleVar xs : ℝ))⁻¹) := by
    funext x
    rw [div_eq_mul_inv]
  have hzsum : (xs.map (fun x : ℚ =>
      ((x : ℝ) - (listMean xs : ℝ)) / Real.sqrt (sampleVar xs : ℝ))).sum = 0 := by
    rw [hfun, sum_map_mul_const, hsum0, zero_mul]
  have hmean : listMeanR (xs.map (fun x : ℚ =>
      ((x : ℝ) - (listMean xs : ℝ)) / Real.sqrt (sampleVar xs : ℝ))) = 0 := by
    rw [listMeanR, hzsum, zero_div]
  refine ⟨hmean, ?_⟩
  rw [sampleVarR, hmean, List.length_map]
  have hSRpos : (0 : ℝ) < (((xs.map (fun x => (x - listMean xs) ^ 2)).sum : ℚ) : ℝ) := by
    exact_mod_cast hS
  have hnum : ((xs.map (fun x : ℚ =>
      ((x : ℝ) - (listMean xs : ℝ)) / Real.sqrt (sampleVar xs : ℝ))).map
        (fun z => (z - 0) ^ 2)).sum = (xs.length : ℝ) - 1 := by
    rw [List.map_map]
    have hcomp : ((fun z : ℝ => (z - 0) ^ 2) ∘ (fun x : ℚ =>
        ((x : ℝ) - (listMean xs : ℝ)) / Real.sqrt (sampleVar xs : ℝ)))
        = fun x : ℚ => (((x : ℝ) - (listMean xs : ℝ)) ^ 2) * (((sampleVar xs : ℚ) : ℝ))⁻¹ := by
      funext x
      simp only [Function.comp_apply, sub_zero]
      rw [div_pow, Real.sq_sqrt hvR.le, div_eq_mul_inv]
    rw [hcomp, sum_map_mul_const, sum_map_sq_cast]
    have hvcast : ((sampleVar xs : ℚ) : ℝ)
        = (((xs.map (fun x => (x - listMean xs) ^ 2)).sum : ℚ) : ℝ) / ((xs.length : ℝ) - 1) := by
      rw [sampleVar]
      push_cast
      ring
    rw [hvcast, inv_div, mul_comm, div_mul_eq_mul_div, div_eq_iff (ne_of_gt hSRpos)]
  rw [hnum]
  have hne : ((xs.length : ℝ) - 1) ≠ 0 := by
    have h2R : (2 : ℝ) ≤ (xs.length : ℝ) := by exact_mod_cast h2
    linarith
  exact div_self hne

lemma range_map_getD {α : Type} (len j : ℕ) (f : ℕ → α) (d : α) (h : j < len) :
    ((List.range len).map f).getD j d = f j := by
  have hlt : j < ((List.range len).map f).length := by
    simp [h]
  rw [List.getD_eq_getElem _ _ hlt]
  simp

/-- C3: whenever feature_cleaner succeeds and the survivor column j is
not constant, the output column j is exactly the survivor column shifted
by its mean and divided by its sample standard deviation, and therefore
has mean 0 and sample variance 1 — hence sample standard deviation 1 —
over the final row set. -/
theorem feature_cleaner_standardize (df : NumFrame) (low high : ℚ)
    (hsucc : (feature_cleaner df low high).isSome = true)
    (j : ℕ) (hj : j < df.cols.length)
    (hnc : ∃ a ∈ colOf (surviveRows df low high) j,
        ∃ b ∈ colOf (surviveRows df low high) j, a ≠ b) :
    feature_cleaner df low high
        = some { cols := df.cols, rows := cleanedRows df low high }
    ∧ ∃ zs : List ℝ,
        colOfStd (cleanedRows df low high) j = zs.map some
        ∧ zs = (colOf (surviveRows df low high) j).map
            (fun x : ℚ =>
              ((x : ℝ) - (listMean (colOf (surviveRows df low high) j) : ℝ))
                / Real.sqrt (sampleVar (colOf (surviveRows df low high) j) : ℝ))
        ∧ listMeanR zs = 0
        ∧ sampleVarR zs = 1
        ∧ Real.sqrt (sampleVarR zs) = 1 := by
  have hcond : ¬(low < 0 ∨ 1 < low ∨ high < 0 ∨ 1 < high) := by
    intro h
    rw [feature_cleaner, if_pos h] at hsucc
    simp at hsucc
  have hfc : feature_cleaner df low high
      = some { cols := df.cols, rows := cleanedRows df low high } := by
    rw [feature_cleaner, if_neg hcond]
  obtain ⟨a, ha, b, hb, hab⟩ := hnc
  have h2 : 2 ≤ (colOf (surviveRows df low high) j).length :=
    two_le_length_of_two_mem _ a b ha hb hab
  have hS : 0 < ((colOf (surviveRows df low high) j).map
      (fun x => (x - listMean (colOf (surviveRows df low high) j)) ^ 2)).sum :=
    sum_sq_dev_pos _ ⟨a, ha, b, hb, hab⟩
  have hvpos : 0 < sampleVar (colOf (surviveRows df low high) j) :=
    sampleVar_pos _ h2 hS
  have hsvlen : (surviveRows df low high).length
      = (colOf (surviveRows df low high) j).length := by
    rw [colOf, List.length_map]
  have hnotdeg : ¬((surviveRows df low high).length ≤ 1
      ∨ sampleVar (colOf (surviveRows df low high) j) = 0) := by
    push_neg
    exact ⟨by omega, ne_of_gt hvpos⟩
  have hcol : colOfStd (cleanedRows df low high) j
      = ((colOf (surviveRows df low high) j).map
          (fun x : ℚ =>
            ((x : ℝ) - (listMean (colOf (surviveRows df low high) j) : ℝ))
              / Real.sqrt (sampleVar (colOf (surviveRows df low high) j) : ℝ))).map some := by
    simp only [cleanedRows, colOfStd, colOf, List.map_map]
    apply List.map_congr_left
    intro r hr
    simp only [Function.comp_apply]
    rw [range_map_getD _ _ _ _ hj]
    rw [stdCell, if_neg]
    exact hnotdeg
  obtain ⟨hmean, hvar⟩ := standardize_mean_var (colOf (surviveRows df low high) j) h2 hS
  exact ⟨hfc, _, hcol, rfl, hmean, hvar, by rw [hvar, Real.sqrt_one]⟩

lemma exNum_survive :
    surviveRows exNumFrame (1/100) (99/100) = [("r1", [1]), ("r2", [2])] := by
  have hq1 : quantileVal (colVals exNumFrame 0) (1/100) = 3/100 := by
    norm_num [quantileVal, colVals, colOf, exNumFrame, sortAsc, insertAsc]
  have hq2 : quantileVal (colVals exNumFrame 0) (99/100) = 244/25 := by
    norm_num [quantileVal, colVals, colOf, exNumFrame, sortAsc, insertAsc,
      show Int.toNat 2 = 2 from rfl]
  rw [surviveRows]
  rw [show List.range exNumFrame.cols.length = [0] from rfl]
  simp only [List.all_cons, List.all_nil, hq1, hq2, Bool.and_true]
  rw [show exNumFrame.rows
      = [("r0", [0]), ("r1", [1]), ("r2", [2]), ("r3", [10])] from rfl]
  norm_num [List.filter]

lemma exNum_survive_col :
    colOf (surviveRows exNumFrame (1/100) (99/100)) 0 = [1, 2] := by
  rw [exNum_survive]
  rfl

theorem feature_cleaner_standardize_witness :
    ((feature_cleaner exNumFrame (1/100) (99/100)).isSome = true
      ∧ 0 < exNumFrame.cols.length
      ∧ (∃ a ∈ colOf (surviveRows exNumFrame (1/100) (99/100)) 0,
          ∃ b ∈ colOf (surviveRows exNumFrame (1/100) (99/100)) 0, a ≠ b))
    ∧ (feature_cleaner exNumFrame (1/100) (99/100)
          = some { cols := exNumFrame.cols, rows := cleanedRows exNumFrame (1/100) (99/100) }
       ∧ ∃ zs : List ℝ,
          colOfStd (cleanedRows exNumFrame (1/100) (99/100)) 0 = zs.map some
          ∧ zs = (colOf (surviveRows exNumFrame (1/100) (99/100)) 0).map
              (fun x : ℚ =>
                ((x : ℝ) - (listMean (colOf (surviveRows exNumFrame (1/100) (99/100)) 0) : ℝ))
                  / Real.sqrt (sampleVar (colOf (surviveRows exNumFrame (1/100) (99/100)) 0) : ℝ))
          ∧ listMeanR zs = 0
          ∧ sampleVarR zs = 1
          ∧ Real.sqrt (sampleVarR zs) = 1) := by
  have hsucc : (feature_cleaner exNumFrame (1/100) (99/100)).isSome = true := by
    rw [feature_cleaner, if_neg (by norm_num)]
    rfl
  have hj : 0 < exNumFrame.cols.length := by decide
  have hnc : ∃ a ∈ colOf (surviveRows exNumFrame (1/100) (99/100)) 0,
      ∃ b ∈ colOf (surviveRows exNumFrame (1/100) (99/100)) 0, a ≠ b := by
    rw [exNum_survive_col]
    exact ⟨1, by simp, 2, by simp, by norm_num⟩
  exact ⟨⟨hsucc, hj, hnc⟩,
    feature_cleaner_standardize exNumFrame (1/100) (99/100) hsucc 0 hj hnc⟩

lemma div_sqrt_close_nonneg (a v q eps L U : ℝ)
    (hL : 0 < L) (hU : 0 < U) (hLv : L ^ 2 ≤ v) (hvU : v ≤ U ^ 2)
    (ha : 0 ≤ a) (h1 : q - eps ≤ a / U) (h2 : a / L ≤ q + eps) :
    |a / Real.sqrt v - q| ≤ eps := by
  have hsL : L ≤ Real.sqrt v := by
    rw [show L = Real.sqrt (L ^ 2) from (Real.sqrt_sq hL.le).symm]
    exact Real.sqrt_le_sqrt hLv
  have hsU : Real.sqrt v ≤ U := by
    rw [show U = Real.sqrt (U ^ 2) from (Real.sqrt_sq hU.le).symm]
    exact Real.sqrt_le_sqrt hvU
  have hs0 : 0 < Real.sqrt v := lt_of_lt_of_le hL hsL
  have hge : a / U ≤ a / Real.sqrt v := div_le_div_of_nonneg_left ha hs0 hsU
  have hle : a / Real.sqrt v ≤ a / L := div_le_div_of_nonneg_left ha hL hsL
  rw [abs_le]
  constructor <;> linarith

lemma div_sqrt_close_nonpos (a v q eps L U : ℝ)
    (hL : 0 < L) (hU : 0 < U) (hLv : L ^ 2 ≤ v) (hvU : v ≤ U ^ 2)
    (ha : a ≤ 0) (h1 : q - eps ≤ a / L) (h2 : a / U ≤ q + eps) :
    |a / Real.sqrt v - q| ≤ eps := by
  have hsL : L ≤ Real.sqrt v := by
    rw [show L = Real.sqrt (L ^ 2) from (Real.sqrt_sq hL.le).symm]
    exact Real.sqrt_le_sqrt hLv
  have hsU : Real.sqrt v ≤ U := by
    rw [show U = Real.sqrt (U ^ 2) from (Real.sqrt_sq hU.le).symm]
    exact Real.sqrt_le_sqrt hvU
  have hs0 : 0 < Real.sqrt v := lt_of_lt_of_le hL hsL
  have hge : a / L ≤ a / Real.sqrt v := by
    have hneg := div_le_div_of_nonneg_left (neg_nonneg.mpr ha) hL hsL
    rw [neg_div, neg_div] at hneg
    linarith
  have hle : a / Real.sqrt v ≤ a / U := by
    have hneg := div_le_div_of_nonneg_left (neg_nonneg.mpr ha) hs0 hsU
    rw [neg_div, neg_div] at hneg
    linarith
  rw [abs_le]
  constructor <;> linarith

/-! ## The feature_cleaner worked example -/

/-- The 8-row, 3-column example frame from the feature_cleaner
docstring. -/
def testdf : NumFrame :=
  { cols := ["0", "1", "2"]
    rows := [("A", [1/10, 2/10, 1/10]), ("B", [5, 10, 20]), ("C", [2/10, 3/10, 5/10]),
             ("D", [3/10, 2/10, 7/10]), ("E", [-1/10, -2/10, -4/10]), ("F", [1/10, 4/10, 3/10]),
             ("G", [-5/10, 3/10, -2/10]), ("H", [-10, 3/10, 1])] }

/-- The survivor rows of the worked example, in original order. -/
def testdfSurvivors : List (String × List ℚ) :=
  [("A", [1/10, 2/10, 1/10]), ("C", [2/10, 3/10, 5/10]), ("D", [3/10, 2/10, 7/10]),
   ("F", [1/10, 4/10, 3/10]), ("G", [-5/10, 3/10, -2/10])]

lemma testdf_q0_low : quantileVal (colVals testdf 0) (1/100) = -1867/200 := by
  norm_num [quantileVal, colVals, colOf, testdf, sortAsc, insertAsc]

lemma testdf_q0_high : quantileVal (colVals testdf 0) (99/100) = 4671/1000 := by
  norm_num [quantileVal, colVals, colOf, testdf, sortAsc, insertAsc,
    show Int.toNat 6 = 6 from rfl]

lemma testdf_q1_low : quantileVal (colVals testdf 1) (1/100) = -43/250 := by
  norm_num [quantileVal, colVals, colOf, testdf, sortAsc, insertAsc]

lemma testdf_q1_high : quantileVal (colVals testdf 1) (99/100) = 1166/125 := by
  norm_num [quantileVal, colVals, colOf, testdf, sortAsc, insertAsc,
    show Int.toNat 6 = 6 from rfl]

lemma testdf_q2_low : quantileVal (colVals testdf 2) (1/100) = -193/500 := by
  norm_num [quantileVal, colVals, colOf, testdf, sortAsc, insertAsc]

lemma testdf_q2_high : quantileVal (colVals testdf 2) (99/100) = 1867/100 := by
  norm_num [quantileVal, colVals, colOf, testdf, sortAsc, insertAsc,
    show Int.toNat 6 = 6 from rfl]

lemma testdf_survive :
    surviveRows testdf (1/100) (99/100) = testdfSurvivors := by
  rw [surviveRows]
  rw [show List.range testdf.cols.length = [0, 1, 2] from rfl]
  simp only [List.all_cons, List.all_nil, testdf_q0_low, testdf_q0_high, testdf_q1_low,
    testdf_q1_high, testdf_q2_low, testdf_q2_high, Bool.and_true]
  rw [show testdf.rows
      = [("A", [1/10, 2/10, 1/10]), ("B", [5, 10, 20]), ("C", [2/10, 3/10, 5/10]),
         ("D", [3/10, 2/10, 7/10]), ("E", [-1/10, -2/10, -4/10]), ("F", [1/10, 4/10, 3/10]),
         ("G", [-5/10, 3/10, -2/10]), ("H", [-10, 3/10, 1])] from rfl]
  norm_num [List.filter, testdfSurvivors]


lemma testdf_col0 : colOf testdfSurvivors 0 = [1/10, 2/10, 3/10, 1/10, -5/10] := rfl

lemma testdf_mean0 : listMean [(1/10 : ℚ), 2/10, 3/10, 1/10, -5/10] = 1/25 := by
  norm_num [listMean]

lemma testdf_var0 : sampleVar [(1/10 : ℚ), 2/10, 3/10, 1/10, -5/10] = 49/500 := by
  norm_num [sampleVar, listMean]


lemma testdf_col1 : colOf testdfSurvivors 1 = [2/10, 3/10, 2/10, 4/10, 3/10] := rfl

lemma testdf_mean1 : listMean [(2/10 : ℚ), 3/10, 2/10, 4/10, 3/10] = 7/25 := by
  norm_num [listMean]

lemma testdf_var1 : sampleVar [(2/10 : ℚ), 3/10, 2/10, 4/10, 3/10] = 7/1000 := by
  norm_num [sampleVar, listMean]


lemma testdf_col2 : colOf testdfSurvivors 2 = [1/10, 5/10, 7/10, 3/10, -2/10] := rfl

lemma testdf_mean2 : listMean [(1/10 : ℚ), 5/10, 7/10, 3/10, -2/10] = 7/25 := by
  norm_num [listMean]

lemma testdf_var2 : sampleVar [(1/10 : ℚ), 5/10, 7/10, 3/10, -2/10] = 61/500 := by
  norm_num [sampleVar, listMean]


lemma testdf_cleaned :
    cleanedRows testdf (1/100) (99/100)
      = [("A", [stdCell 5 (1/25) (49/500) (1/10), stdCell 5 (7/25) (7/1000) (2/10), stdCell 5 (7/25) (61/500) (1/10)]),
       ("C", [stdCell 5 (1/25) (49/500) (2/10), stdCell 5 (7/25) (7/1000) (3/10), stdCell 5 (7/25) (61/500) (5/10)]),
       ("D", [stdCell 5 (1/25) (49/500) (3/10), stdCell 5 (7/25) (7/1000) (2/10), stdCell 5 (7/25) (61/500) (7/10)]),
       ("F", [stdCell 5 (1/25) (49/500) (1/10), stdCell 5 (7/25) (7/1000) (4/10), stdCell 5 (7/25) (61/500) (3/10)]),
       ("G", [stdCell 5 (1/25) (49/500) (-5/10), stdCell 5 (7/25) (7/1000) (3/10), stdCell 5 (7/25) (61/500) (-2/10)])] := by
  simp only [cleanedRows]
  rw [testdf_survive]
  rw [show List.range testdf.cols.length = [0, 1, 2] from rfl]
  simp only [List.map_cons, List.map_nil]
  rw [testdf_col0, testdf_col1, testdf_col2, testdf_mean0, testdf_mean1, testdf_mean2,
    testdf_var0, testdf_var1, testdf_var2]
  simp only [testdfSurvivors, List.map_cons, List.map_nil]
  rfl

/-- A scaled cell is within eps of the expected value. -/
def cellClose (eps : ℚ) (c : Option ℝ) (q : ℚ) : Prop :=
  ∃ z : ℝ, c = some z ∧ |z - (q : ℝ)| ≤ (eps : ℝ)

/-- Every cell of every row is within eps of the corresponding expected
value. -/
def cellsClose (eps : ℚ) (rows : List (String × List (Option ℝ)))
    (vals : List (List ℚ)) : Prop :=
  List.Forall₂ (fun (r : String × List (Option ℝ)) (v : List ℚ) =>
    List.Forall₂ (cellClose eps) r.2 v) rows vals


lemma c6_cell_A0 :
    cellClose (1/100000) (stdCell 5 (1/25) (49/500) (1/10)) (191663/1000000) := by
  rw [cellClose, stdCell, if_neg (by norm_num)]
  refine ⟨_, rfl, ?_⟩
  apply div_sqrt_close_nonneg _ _ _ _ ((31304951 : ℝ)/100000000) ((31304952 : ℝ)/100000000)
    (by norm_num) (by norm_num) (by push_cast; norm_num) (by push_cast; norm_num)
    (by push_cast; norm_num) (by push_cast; norm_num) (by push_cast; norm_num)


lemma c6_cell_A1 :
    cellClose (1/100000) (stdCell 5 (7/25) (7/1000) (2/10)) (-956183/1000000) := by
  rw [cellClose, stdCell, if_neg (by norm_num)]
  refine ⟨_, rfl, ?_⟩
  apply div_sqrt_close_nonpos _ _ _ _ ((8366600 : ℝ)/100000000) ((8366601 : ℝ)/100000000)
    (by norm_num) (by norm_num) (by push_cast; norm_num) (by push_cast; norm_num)
    (by push_cast; norm_num) (by push_cast; norm_num) (by push_cast; norm_num)


lemma c6_cell_A2 :
    cellClose (1/100000) (stdCell 5 (7/25) (61/500) (1/10)) (-515339/1000000) := by
  rw [cellClose, stdCell, if_neg (by norm_num)]
  refine ⟨_, rfl, ?_⟩
  apply div_sqrt_close_nonpos _ _ _ _ ((34928498 : ℝ)/100000000) ((34928499 : ℝ)/100000000)
    (by norm_num) (by norm_num) (by push_cast; norm_num) (by push_cast; norm_num)
    (by push_cast; norm_num) (by push_cast; norm_num) (by push_cast; norm_num)


lemma c6_cell_C0 :
    cellClose (1/100000) (stdCell 5 (1/25) (49/500) (2/10)) (511101/1000000) := by
  rw [cellClose, stdCell, if_neg (by norm_num)]
  refine ⟨_, rfl, ?_⟩
  apply div_sqrt_close_nonneg _ _ _ _ ((31304951 : ℝ)/100000000) ((31304952 : ℝ)/100000000)
    (by norm_num) (by norm_num) (by push_cast; norm_num) (by push_cast; norm_num)
    (by push_cast; norm_num) (by push_cast; norm_num) (by push_cast; norm_num)


lemma c6_cell_C1 :
    cellClose (1/100000) (stdCell 5 (7/25) (7/1000) (3/10)) (239046/1000000) := by
  rw [cellClose, stdCell, if_neg (by norm_num)]
  refine ⟨_, rfl, ?_⟩
  apply div_sqrt_close_nonneg _ _ _ _ ((8366600 : ℝ)/100000000) ((8366601 : ℝ)/100000000)
    (by norm_num) (by norm_num) (by push_cast; norm_num) (by push_cast; norm_num)
    (by push_cast; norm_num) (by push_cast; norm_num) (by push_cast; norm_num)


lemma c6_cell_C2 :
    cellClose (1/100000) (stdCell 5 (7/25) (61/500) (5/10)) (629858/1000000) := by
  rw [cellClose, stdCell, if_neg (by norm_num)]
  refine ⟨_, rfl, ?_⟩
  apply div_sqrt_close_nonneg _ _ _ _ ((34928498 : ℝ)/100000000) ((34928499 : ℝ)/100000000)
    (by norm_num) (by norm_num) (by push_cast; norm_num) (by push_cast; norm_num)
    (by push_cast; norm_num) (by push_cast; norm_num) (by push_cast; norm_num)


lemma c6_cell_D0 :
    cellClose (1/100000) (stdCell 5 (1/25) (49/500) (3/10)) (830540/1000000) := by
  rw [cellClose, stdCell, if_neg (by norm_num)]
  refine ⟨_, rfl, ?_⟩
  apply div_sqrt_close_nonneg _ _ _ _ ((31304951 : ℝ)/100000000) ((31304952 : ℝ)/100000000)
    (by norm_num) (by norm_num) (by push_cast; norm_num) (by push_cast; norm_num)
    (by push_cast; norm_num) (by push_cast; norm_num) (by push_cast; norm_num)


lemma c6_cell_D1 :
    cellClose (1/100000) (stdCell 5 (7/25) (7/1000) (2/10)) (-956183/1000000) := by
  rw [cellClose, stdCell, if_neg (by norm_num)]
  refine ⟨_, rfl, ?_⟩
  apply div_sqrt_close_nonpos _ _ _ _ ((8366600 : ℝ)/100000000) ((8366601 : ℝ)/100000000)
    (by norm_num) (by norm_num) (by push_cast; norm_num) (by push_cast; norm_num)
    (by push_cast; norm_num) (by push_cast; norm_num) (by push_cast; norm_num)


lemma c6_cell_D2 :
    cellClose (1/100000) (stdCell 5 (7/25) (61/500) (7/10)) (1202457/1000000) := by
  rw [cellClose, stdCell, if_neg (by norm_num)]
  refine ⟨_, rfl, ?_⟩
  apply div_sqrt_close_nonneg _ _ _ _ ((34928498 : ℝ)/100000000) ((34928499 : ℝ)/100000000)
    (by norm_num) (by norm_num) (by push_cast; norm_num) (by push_cast; norm_num)
    (by push_cast; norm_num) (by push_cast; norm_num) (by push_cast; norm_num)


lemma c6_cell_F0 :
    cellClose (1/100000) (stdCell 5 (1/25) (49/500) (1/10)) (191663/1000000) := by
  rw [cellClose, stdCell, if_neg (by norm_num)]
  refine ⟨_, rfl, ?_⟩
  apply div_sqrt_close_nonneg _ _ _ _ ((31304951 : ℝ)/100000000) ((31304952 : ℝ)/100000000)
    (by norm_num) (by norm_num) (by push_cast; norm_num) (by push_cast; norm_num)
    (by push_cast; norm_num) (by push_cast; norm_num) (by push_cast; norm_num)


lemma c6_cell_F1 :
    cellClose (1/100000) (stdCell 5 (7/25) (7/1000) (4/10)) (1434274/1000000) := by
  rw [cellClose, stdCell, if_neg (by norm_num)]
  refine ⟨_, rfl, ?_⟩
  apply div_sqrt_close_nonneg _ _ _ _ ((8366600 : ℝ)/100000000) ((8366601 : ℝ)/100000000)
    (by norm_num) (by norm_num) (by push_cast; norm_num) (by push_cast; norm_num)
    (by push_cast; norm_num) (by push_cast; norm_num) (by push_cast; norm_num)


lemma c6_cell_F2 :
    cellClose (1/100000) (stdCell 5 (7/25) (61/500) (3/10)) (57260/1000000) := by
  rw [cellClose, stdCell, if_neg (by norm_num)]
  refine ⟨_, rfl, ?_⟩
  apply div_sqrt_close_nonneg _ _ _ _ ((34928498 : ℝ)/100000000) ((34928499 : ℝ)/100000000)
    (by norm_num) (by norm_num) (by push_cast; norm_num) (by push_cast; norm_num)
    (by push_cast; norm_num) (by push_cast; norm_num) (by push_cast; norm_num)


lemma c6_cell_G0 :
    cellClose (1/100000) (stdCell 5 (1/25) (49/500) (-5/10)) (-1724967/1000000) := by
  rw [cellClose, stdCell, if_neg (by norm_num)]
  refine ⟨_, rfl, ?_⟩
  apply div_sqrt_close_nonpos _ _ _ _ ((31304951 : ℝ)/100000000) ((31304952 : ℝ)/100000000)
    (by norm_num) (by norm_num) (by push_cast; norm_num) (by push_cast; norm_num)
    (by push_cast; norm_num) (by push_cast; norm_num) (by push_cast; norm_num)


lemma c6_cell_G1 :
    cellClose (1/100000) (stdCell 5 (7/25) (7/1000) (3/10)) (239046/1000000) := by
  rw [cellClose, stdCell, if_neg (by norm_num)]
  refine ⟨_, rfl, ?_⟩
  apply div_sqrt_close_nonneg _ _ _ _ ((8366600 : ℝ)/100000000) ((8366601 : ℝ)/100000000)
    (by norm_num) (by norm_num) (by push_cast; norm_num) (by push_cast; norm_num)
    (by push_cast; norm_num) (by push_cast; norm_num) (by push_cast; norm_num)


lemma c6_cell_G2 :
    cellClose (1/100000) (stdCell 5 (7/25) (61/500) (-2/10)) (-1374236/1000000) := by
  rw [cellClose, stdCell, if_neg (by norm_num)]
  refine ⟨_, rfl, ?_⟩
  apply div_sqrt_close_nonpos _ _ _ _ ((34928498 : ℝ)/100000000) ((34928499 : ℝ)/100000000)
    (by norm_num) (by norm_num) (by push_cast; norm_num) (by push_cast; norm_num)
    (by push_cast; norm_num) (by push_cast; norm_num) (by push_cast; norm_num)


/-- C6: on the 8-row worked example with low = 0.01 and high = 0.99,
feature_cleaner keeps exactly rows A, C, D, F, G (dropping B, E and H)
and standardizes them to the values listed in the docstring, each within
1/100000. -/
theorem feature_cleaner_worked_example :
    feature_cleaner testdf (1/100) (99/100)
        = some { cols := testdf.cols, rows := cleanedRows testdf (1/100) (99/100) }
    ∧ (cleanedRows testdf (1/100) (99/100)).map Prod.fst = ["A", "C", "D", "F", "G"]
    ∧ cellsClose (1/100000) (cleanedRows testdf (1/100) (99/100))
        [[191663/1000000, -956183/1000000, -515339/1000000],
         [511101/1000000, 239046/1000000, 629858/1000000],
         [830540/1000000, -956183/1000000, 1202457/1000000],
         [191663/1000000, 1434274/1000000, 57260/1000000],
         [-1724967/1000000, 239046/1000000, -1374236/1000000]] := by
  refine ⟨by rw [feature_cleaner, if_neg (by norm_num)], ?_, ?_⟩
  · rw [testdf_cleaned]
    rfl
  · rw [cellsClose, testdf_cleaned]
    exact List.Forall₂.cons (List.Forall₂.cons c6_cell_A0 (List.Forall₂.cons c6_cell_A1 (List.Forall₂.cons c6_cell_A2 List.Forall₂.nil)))
      (List.Forall₂.cons (List.Forall₂.cons c6_cell_C0 (List.Forall₂.cons c6_cell_C1 (List.Forall₂.cons c6_cell_C2 List.Forall₂.nil)))
      (List.Forall₂.cons (List.Forall₂.cons c6_cell_D0 (List.Forall₂.cons c6_cell_D1 (List.Forall₂.cons c6_cell_D2 List.Forall₂.nil)))
      (List.Forall₂.cons (List.Forall₂.cons c6_cell_F0 (List.Forall₂.cons c6_cell_F1 (List.Forall₂.cons c6_cell_F2 List.Forall₂.nil)))
      (List.Forall₂.cons (List.Forall₂.cons c6_cell_G0 (List.Forall₂.cons c6_cell_G1 (List.Forall₂.cons c6_cell_G2 List.Forall₂.nil))) List.Forall₂.nil))))

/-! ## get_feature -/

/-- Values arising in the get_feature pipeline: a finite number, plus
infinity, or NaN.  All numerators and denominators in the pipeline are
ranges and variances, hence nonnegative, so negative infinity cannot
arise. -/
inductive PVal where
  | num (q : ℚ)
  | pinf
  | nan
deriving DecidableEq, Repr

/-- numpy division for the nonnegative values of this pipeline: NaN
propagates, x / 0 is +inf for x positive and NaN for x = 0, inf / inf is
NaN, finite / inf is 0. -/
def pdiv : PVal → PVal → PVal
  | _, PVal.nan => PVal.nan
  | PVal.nan, _ => PVal.nan
  | PVal.pinf, PVal.pinf => PVal.nan
  | PVal.pinf, PVal.num _ => PVal.pinf
  | PVal.num _, PVal.pinf => PVal.num 0
  | PVal.num a, PVal.num b =>
    if b = 0 then (if a = 0 then PVal.nan else PVal.pinf) else PVal.num (a / b)

/-- Subtraction; NaN propagates.  The subtrahend in this pipeline is a
column minimum and never infinite, so the minus-infinity case is mapped
to NaN without loss. -/
def psub : PVal → PVal → PVal
  | PVal.num a, PVal.num b => PVal.num (a - b)
  | PVal.pinf, PVal.num _ => PVal.pinf
  | _, _ => PVal.nan

/-- np.max over a series: NaN on empty data. -/
def listMax : List ℚ → PVal
  | [] => PVal.nan
  | x :: t => PVal.num (t.foldl max x)

/-- np.min over a series: NaN on empty data. -/
def listMin : List ℚ → PVal
  | [] => PVal.nan
  | x :: t => PVal.num (t.foldl min x)

/-- pandas x.var() with ddof = 1: NaN when fewer than two values. -/
def pvar (xs : List ℚ) : PVal :=
  if xs.length ≤ 1 then PVal.nan
  else PVal.num (sampleVar xs)

/-- Comparison on non-NaN values: +inf dominates every number. -/
def pleB : PVal → PVal → Bool
  | PVal.num a, PVal.num b => decide (a ≤ b)
  | PVal.num _, PVal.pinf => true
  | PVal.pinf, PVal.num _ => false
  | PVal.pinf, PVal.pinf => true
  | _, _ => false

/-- Series.max with skipna: drop NaN entries, NaN if nothing is left. -/
def pmaxList (l : List PVal) : PVal :=
  match l.filter (fun v => decide (v ≠ PVal.nan)) with
  | [] => PVal.nan
  | x :: t => t.foldl (fun a b => if pleB a b then b else a) x

/-- Series.min with skipna: drop NaN entries, NaN if nothing is left. -/
def pminList (l : List PVal) : PVal :=
  match l.filter (fun v => decide (v ≠ PVal.nan)) with
  | [] => PVal.nan
  | x :: t => t.foldl (fun a b => if pleB b a then b else a) x

/-- The position of the "CLASS" column. -/
def classIdx (df : NumFrame) : ℕ := df.cols.indexOf "CLASS"

/-- The CLASS value of a row. -/
def classOfRow (df : NumFrame) (r : String × List ℚ) : ℚ :=
  r.2.getD (classIdx df) 0

/-- The rows of one groupby("CLASS") group. -/
def groupRows (df : NumFrame) (c : ℚ) : List (String × List ℚ) :=
  df.rows.filter (fun r => decide (classOfRow df r = c))

/-- The groupby("CLASS") keys: distinct CLASS values, sorted ascending. -/
def groupKeys (df : NumFrame) : List ℚ :=
  sortAsc ((df.rows.map (classOfRow df)).dedup)

/-- Column j of `df_by_class.apply(lambda x: (np.max(x) - np.min(x)) /
x.var())`: one R value per group, NaN on the grouping column itself
(range 0 divided by variance 0). -/
def rList (df : NumFrame) (j : ℕ) : List PVal :=
  (groupKeys df).map (fun c =>
    let xs := colOf (groupRows df c) j
    pdiv (psub (listMax xs) (listMin xs)) (pvar xs))

/-- Column j of `df_w_ratio.apply(lambda x: np.max(x) / np.min(x))`: the
ratio K of the largest to the smallest R of the column. -/
def kVal (df : NumFrame) (j : ℕ) : PVal :=
  pdiv (pmaxList (rList df j)) (pminList (rList df j))

/-- Series.idxmax with skipna: the label of the first entry achieving
the maximum non-NaN value; none when every entry is NaN. -/
def idxmaxAux (best : Option (String × PVal)) : List (String × PVal) → Option String
  | [] => best.map Prod.fst
  | (nm, v) :: rest =>
    match v with
    | PVal.nan => idxmaxAux best rest
    | _ =>
      match best with
      | none => idxmaxAux (some (nm, v)) rest
      | some (bn, bv) =>
        if pleB v bv then idxmaxAux (some (bn, bv)) rest
        else idxmaxAux (some (nm, v)) rest

/-- `get_feature(df)`: group by CLASS, take per group and per column the
range-to-variance ratio R, per column the ratio K of the larger to the
smaller R, and return the column name with the largest K
(`df_sort.idxmax()`). -/
def get_feature (df : NumFrame) : Option String :=
  idxmaxAux none ((df.cols.enum).map (fun p => (p.2, kVal df p.1)))

/-- Plain maximum of a rational column (0 on empty data, which the spec
excludes). -/
def listMaxQ : List ℚ → ℚ
  | [] => 0
  | x :: t => t.foldl max x

/-- Plain minimum of a rational column (0 on empty data, which the spec
excludes). -/
def listMinQ : List ℚ → ℚ
  | [] => 0
  | x :: t => t.foldl min x

/-- The spec formula R_c = (max - min) / variance within one class. -/
def spec_R (xs : List ℚ) : ℚ :=
  (listMaxQ xs - listMinQ xs) / sampleVar xs

/-- The spec formula K = max(R_0, R_1) / min(R_0, R_1) for one column. -/
def spec_K (df : NumFrame) (j : ℕ) : ℚ :=
  max (spec_R (colOf (groupRows df 0) j)) (spec_R (colOf (groupRows df 1) j))
    / min (spec_R (colOf (groupRows df 0) j)) (spec_R (colOf (groupRows df 1) j))

/-- Spec-side argmax: first entry achieving the maximum, in order. -/
def spec_argmaxAux (best : Option (String × ℚ)) : List (String × ℚ) → Option String
  | [] => best.map Prod.fst
  | (nm, v) :: rest =>
    match best with
    | none => spec_argmaxAux (some (nm, v)) rest
    | some (bn, bv) =>
      if v ≤ bv then spec_argmaxAux (some (bn, bv)) rest
      else spec_argmaxAux (some (nm, v)) rest

/-- Modelled from the spec text of the discriminativeness ranking: the
name of the feature column (CLASS excluded) with the largest K, ties
broken by the first column achieving the maximum in original column
order. -/
def spec_get_feature (df : NumFrame) : Option String :=
  spec_argmaxAux none
    (((df.cols.enum).filter (fun p => decide (p.2 ≠ "CLASS"))).map
      (fun p => (p.2, spec_K df p.1)))

lemma foldl_max_init (t : List ℚ) : ∀ x : ℚ, x ≤ t.foldl max x := by
  induction t with
  | nil => intro x; exact le_refl x
  | cons b t ih => intro x; exact le_trans (le_max_left x b) (ih (max x b))

lemma foldl_max_mem (t : List ℚ) : ∀ x a : ℚ, a ∈ t → a ≤ t.foldl max x := by
  induction t with
  | nil => intro x a h; cases h
  | cons b t ih =>
    intro x a h
    rcases List.mem_cons.mp h with rfl | h
    · exact le_trans (le_max_right x a) (foldl_max_init t (max x a))
    · exact ih (max x b) a h

lemma foldl_max_le (t : List ℚ) :
    ∀ x bound : ℚ, x ≤ bound → (∀ a ∈ t, a ≤ bound) → t.foldl max x ≤ bound := by
  induction t with
  | nil => intro x bound hx _; exact hx
  | cons b t ih =>
    intro x bound hx hall
    exact ih (max x b) bound (max_le hx (hall b (List.mem_cons_self b t)))
      (fun a ha => hall a (List.mem_cons_of_mem b ha))

lemma foldl_min_init (t : List ℚ) : ∀ x : ℚ, t.foldl min x ≤ x := by
  induction t with
  | nil => intro x; exact le_refl x
  | cons b t ih => intro x; exact le_trans (ih (min x b)) (min_le_left x b)

lemma foldl_min_mem (t : List ℚ) : ∀ x a : ℚ, a ∈ t → t.foldl min x ≤ a := by
  induction t with
  | nil => intro x a h; cases h
  | cons b t ih =>
    intro x a h
    rcases List.mem_cons.mp h with rfl | h
    · exact le_trans (foldl_min_init t (min x a)) (min_le_right x a)
    · exact ih (min x b) a h

lemma foldl_min_ge (t : List ℚ) :
    ∀ x bound : ℚ, bound ≤ x → (∀ a ∈ t, bound ≤ a) → bound ≤ t.foldl min x := by
  induction t with
  | nil => intro x bound hx _; exact hx
  | cons b t ih =>
    intro x bound hx hall
    exact ih (min x b) bound (le_min hx (hall b (List.mem_cons_self b t)))
      (fun a ha => hall a (List.mem_cons_of_mem b ha))

lemma le_listMaxQ (xs : List ℚ) (a : ℚ) (ha : a ∈ xs) : a ≤ listMaxQ xs := by
  match xs with
  | [] => cases ha
  | x :: t =>
    rcases List.mem_cons.mp ha with rfl | h
    · exact foldl_max_init t a
    · exact foldl_max_mem t x a h

lemma listMinQ_le (xs : List ℚ) (a : ℚ) (ha : a ∈ xs) : listMinQ xs ≤ a := by
  match xs with
  | [] => cases ha
  | x :: t =>
    rcases List.mem_cons.mp ha with rfl | h
    · exact foldl_min_init t a
    · exact foldl_min_mem t x a h

lemma listMaxQ_const (xs : List ℚ) (c : ℚ) (hne : xs ≠ [])
    (h : ∀ a ∈ xs, a = c) : listMaxQ xs = c := by
  match xs with
  | [] => exact absurd rfl hne
  | x :: t =>
    apply le_antisymm
    · exact foldl_max_le t x c (le_of_eq (h x (List.mem_cons_self x t)))
        (fun a ha => le_of_eq (h a (List.mem_cons_of_mem x ha)))
    · exact le_listMaxQ (x :: t) c
        ((h x (List.mem_cons_self x t)) ▸ List.mem_cons_self x t)

lemma listMinQ_const (xs : List ℚ) (c : ℚ) (hne : xs ≠ [])
    (h : ∀ a ∈ xs, a = c) : listMinQ xs = c := by
  match xs with
  | [] => exact absurd rfl hne
  | x :: t =>
    apply le_antisymm
    · exact listMinQ_le (x :: t) c
        ((h x (List.mem_cons_self x t)) ▸ List.mem_cons_self x t)
    · exact foldl_min_ge t x c (ge_of_eq (h x (List.mem_cons_self x t)))
        (fun a ha => ge_of_eq (h a (List.mem_cons_of_mem x ha)))

lemma sum_of_const (xs : List ℚ) (c : ℚ) (h : ∀ a ∈ xs, a = c) :
    xs.sum = xs.length * c := by
  induction xs with
  | nil => simp
  | cons a t ih =>
    rw [List.sum_cons, ih (fun b hb => h b (List.mem_cons_of_mem a hb)),
      h a (List.mem_cons_self a t), List.length_cons]
    push_cast
    ring

lemma sampleVar_const (xs : List ℚ) (h : ∀ a ∈ xs, ∀ b ∈ xs, a = b) :
    sampleVar xs = 0 := by
  match xs with
  | [] => rw [sampleVar]; simp
  | c :: t =>
    have hall : ∀ a ∈ c :: t, a = c := fun a ha => h a ha c (List.mem_cons_self c t)
    have hmean : listMean (c :: t) = c := by
      rw [listMean, sum_of_const (c :: t) c hall]
      have hne : ((c :: t).length : ℚ) ≠ 0 := by
        simp [List.length_cons]
        positivity
      field_simp
    have hdev : ∀ y ∈ (c :: t).map (fun x => (x - listMean (c :: t)) ^ 2), y = 0 := by
      intro y hy
      obtain ⟨x, hx, rfl⟩ := List.mem_map.mp hy
      rw [hmean, hall x hx]
      ring
    rw [sampleVar, sum_of_const _ 0 hdev]
    simp

lemma exists_ne_of_sampleVar_pos (xs : List ℚ) (h : 0 < sampleVar xs) :
    ∃ a ∈ xs, ∃ b ∈ xs, a ≠ b := by
  by_contra hc
  push_neg at hc
  rw [sampleVar_const xs hc] at h
  exact lt_irrefl 0 h

lemma listMinQ_lt_listMaxQ (xs : List ℚ)
    (hnc : ∃ a ∈ xs, ∃ b ∈ xs, a ≠ b) : listMinQ xs < listMaxQ xs := by
  obtain ⟨a, ha, b, hb, hab⟩ := hnc
  rcases lt_or_gt_of_ne hab with hlt | hgt
  · exact lt_of_le_of_lt (listMinQ_le xs a ha) (lt_of_lt_of_le hlt (le_listMaxQ xs b hb))
  · exact lt_of_le_of_lt (listMinQ_le xs b hb) (lt_of_lt_of_le hgt (le_listMaxQ xs a ha))

lemma listMax_eq (xs : List ℚ) (h : xs ≠ []) : listMax xs = PVal.num (listMaxQ xs) := by
  match xs with
  | [] => exact absurd rfl h
  | x :: t => rfl

lemma listMin_eq (xs : List ℚ) (h : xs ≠ []) : listMin xs = PVal.num (listMinQ xs) := by
  match xs with
  | [] => exact absurd rfl h
  | x :: t => rfl

lemma pdiv_num_num (a b : ℚ) (hb : b ≠ 0) :
    pdiv (PVal.num a) (PVal.num b) = PVal.num (a / b) := by
  simp [pdiv, hb]

lemma pdiv_zero_zero : pdiv (PVal.num 0) (PVal.num 0) = PVal.nan := by
  simp [pdiv]

lemma pmaxList_two (r0 r1 : ℚ) :
    pmaxList [PVal.num r0, PVal.num r1] = PVal.num (max r0 r1) := by
  rw [pmaxList]
  simp only [List.filter]
  norm_num
  by_cases h : r0 ≤ r1
  · simp [pleB, h, max_eq_right h]
  · simp [pleB, h, max_eq_left (le_of_not_le h)]

lemma pminList_two (r0 r1 : ℚ) :
    pminList [PVal.num r0, PVal.num r1] = PVal.num (min r0 r1) := by
  rw [pminList]
  simp only [List.filter]
  norm_num
  by_cases h : r1 ≤ r0
  · simp [pleB, h, min_eq_right h]
  · simp [pleB, h, min_eq_left (le_of_not_le h)]

lemma pmaxList_nan_nan : pmaxList [PVal.nan, PVal.nan] = PVal.nan := by
  rw [pmaxList]
  simp [List.filter]

lemma pminList_nan_nan : pminList [PVal.nan, PVal.nan] = PVal.nan := by
  rw [pminList]
  simp [List.filter]

lemma group_mem_class (df : NumFrame) (c : ℚ) (r : String × List ℚ)
    (hr : r ∈ groupRows df c) : r ∈ df.rows ∧ classOfRow df r = c := by
  rw [groupRows, List.mem_filter] at hr
  exact ⟨hr.1, of_decide_eq_true hr.2⟩

lemma group_class_col (df : NumFrame) (c : ℚ) :
    ∀ a ∈ colOf (groupRows df c) (classIdx df), a = c := by
  intro a ha
  rw [colOf, List.mem_map] at ha
  obtain ⟨r, hr, rfl⟩ := ha
  exact (group_mem_class df c r hr).2

lemma exists_mem_of_two_le {α : Type} (l : List α) (h : 2 ≤ l.length) :
    ∃ a, a ∈ l := by
  match l with
  | [] => simp at h
  | a :: t => exact ⟨a, List.mem_cons_self a t⟩

lemma binary_nodup_eq (l : List ℚ) (hnd : l.Nodup)
    (hsub : ∀ x ∈ l, x = 0 ∨ x = 1)
    (h0 : (0 : ℚ) ∈ l) (h1 : (1 : ℚ) ∈ l) : l = [0, 1] ∨ l = [1, 0] := by
  match l with
  | [] => cases h0
  | [a] =>
    rw [List.mem_singleton] at h0 h1
    exact absurd (h0.trans h1.symm) (by norm_num)
  | a :: b :: t =>
    rw [List.nodup_cons, List.nodup_cons] at hnd
    have hab : a ≠ b := fun h => hnd.1 (h ▸ List.mem_cons_self b t)
    have hat : a ∉ t := fun h => hnd.1 (List.mem_cons_of_mem b h)
    have hbt : b ∉ t := hnd.2.1
    have ht : t = [] := by
      rw [List.eq_nil_iff_forall_not_mem]
      intro x hx
      rcases hsub x (List.mem_cons_of_mem a (List.mem_cons_of_mem b hx)) with rfl | rfl
      all_goals {
        rcases hsub a (List.mem_cons_self a _) with ha | ha <;>
          rcases hsub b (List.mem_cons_of_mem a (List.mem_cons_self b t)) with hb | hb <;>
          first
            | exact hab (ha.trans hb.symm)
            | exact hat (ha ▸ hx)
            | exact hbt (hb ▸ hx)
      }
    subst ht
    rcases hsub a (List.mem_cons_self a _) with ha | ha <;>
      rcases hsub b (List.mem_cons_of_mem a (List.mem_cons_self b [])) with hb | hb
    · exact absurd (ha.trans hb.symm) hab
    · exact Or.inl (by rw [ha, hb])
    · exact Or.inr (by rw [ha, hb])
    · exact absurd (ha.trans hb.symm) hab

lemma groupKeys_binary (df : NumFrame)
    (hbin : ∀ r ∈ df.rows, classOfRow df r = 0 ∨ classOfRow df r = 1)
    (h0 : ∃ r ∈ df.rows, classOfRow df r = 0)
    (h1 : ∃ r ∈ df.rows, classOfRow df r = 1) :
    groupKeys df = [0, 1] := by
  rw [groupKeys]
  have hsub : ∀ x ∈ (df.rows.map (classOfRow df)).dedup, x = 0 ∨ x = 1 := by
    intro x hx
    rw [List.mem_dedup, List.mem_map] at hx
    obtain ⟨r, hr, rfl⟩ := hx
    exact hbin r hr
  have h0d : (0 : ℚ) ∈ (df.rows.map (classOfRow df)).dedup := by
    rw [List.mem_dedup, List.mem_map]
    obtain ⟨r, hr, hc⟩ := h0
    exact ⟨r, hr, hc⟩
  have h1d : (1 : ℚ) ∈ (df.rows.map (classOfRow df)).dedup := by
    rw [List.mem_dedup, List.mem_map]
    obtain ⟨r, hr, hc⟩ := h1
    exact ⟨r, hr, hc⟩
  rcases binary_nodup_eq _ (List.nodup_dedup _) hsub h0d h1d with hd | hd
  · rw [hd]
    norm_num [sortAsc, insertAsc]
  · rw [hd]
    norm_num [sortAsc, insertAsc]

lemma rGroup_feature (df : NumFrame) (c : ℚ) (j : ℕ)
    (hl : 2 ≤ (groupRows df c).length)
    (hv : 0 < sampleVar (colOf (groupRows df c) j)) :
    pdiv (psub (listMax (colOf (groupRows df c) j)) (listMin (colOf (groupRows df c) j)))
        (pvar (colOf (groupRows df c) j))
      = PVal.num (spec_R (colOf (groupRows df c) j))
    ∧ 0 < spec_R (colOf (groupRows df c) j) := by
  set xs := colOf (groupRows df c) j with hxs
  have hlen : xs.length = (groupRows df c).length := by rw [hxs, colOf, List.length_map]
  have h2 : 2 ≤ xs.length := hlen ▸ hl
  have hne : xs ≠ [] := by
    intro h
    rw [h] at h2
    simp at h2
  have hnc := exists_ne_of_sampleVar_pos xs hv
  have hrange : 0 < listMaxQ xs - listMinQ xs := sub_pos.mpr (listMinQ_lt_listMaxQ xs hnc)
  have hnle : ¬(xs.length ≤ 1) := by omega
  rw [listMax_eq xs hne, listMin_eq xs hne]
  simp only [psub]
  rw [pvar, if_neg hnle, pdiv_num_num _ _ (ne_of_gt hv)]
  refine ⟨by rw [spec_R], ?_⟩
  rw [spec_R]
  exact div_pos hrange hv

lemma rList_feature (df : NumFrame) (j : ℕ)
    (hkeys : groupKeys df = [0, 1])
    (hl0 : 2 ≤ (groupRows df 0).length) (hl1 : 2 ≤ (groupRows df 1).length)
    (hv0 : 0 < sampleVar (colOf (groupRows df 0) j))
    (hv1 : 0 < sampleVar (colOf (groupRows df 1) j)) :
    rList df j = [PVal.num (spec_R (colOf (groupRows df 0) j)),
                  PVal.num (spec_R (colOf (groupRows df 1) j))] := by
  rw [rList, hkeys]
  simp only [List.map_cons, List.map_nil]
  rw [(rGroup_feature df 0 j hl0 hv0).1, (rGroup_feature df 1 j hl1 hv1).1]

lemma kVal_feature (df : NumFrame) (j : ℕ)
    (hkeys : groupKeys df = [0, 1])
    (hl0 : 2 ≤ (groupRows df 0).length) (hl1 : 2 ≤ (groupRows df 1).length)
    (hv0 : 0 < sampleVar (colOf (groupRows df 0) j))
    (hv1 : 0 < sampleVar (colOf (groupRows df 1) j)) :
    kVal df j = PVal.num (spec_K df j) := by
  rw [kVal, rList_feature df j hkeys hl0 hl1 hv0 hv1, pmaxList_two, pminList_two]
  have hminpos : 0 < min (spec_R (colOf (groupRows df 0) j))
      (spec_R (colOf (groupRows df 1) j)) :=
    lt_min (rGroup_feature df 0 j hl0 hv0).2 (rGroup_feature df 1 j hl1 hv1).2
  rw [pdiv_num_num _ _ (ne_of_gt hminpos), spec_K]

lemma kVal_class (df : NumFrame)
    (hkeys : groupKeys df = [0, 1])
    (hl0 : 2 ≤ (groupRows df 0).length) (hl1 : 2 ≤ (groupRows df 1).length) :
    kVal df (classIdx df) = PVal.nan := by
  have hgen : ∀ c : ℚ, 2 ≤ (groupRows df c).length →
      pdiv (psub (listMax (colOf (groupRows df c) (classIdx df)))
          (listMin (colOf (groupRows df c) (classIdx df))))
        (pvar (colOf (groupRows df c) (classIdx df))) = PVal.nan := by
    intro c hl
    set xs := colOf (groupRows df c) (classIdx df) with hxs
    have hlen : xs.length = (groupRows df c).length := by rw [hxs, colOf, List.length_map]
    have h2 : 2 ≤ xs.length := hlen ▸ hl
    have hne : xs ≠ [] := by
      intro h
      rw [h] at h2
      simp at h2
    have hconst : ∀ a ∈ xs, a = c := group_class_col df c
    have hmax : listMaxQ xs = c := listMaxQ_const xs c hne hconst
    have hmin : listMinQ xs = c := listMinQ_const xs c hne hconst
    have hvar0 : sampleVar xs = 0 :=
      sampleVar_const xs (fun a ha b hb => (hconst a ha).trans (hconst b hb).symm)
    have hnle : ¬(xs.length ≤ 1) := by omega
    rw [listMax_eq xs hne, listMin_eq xs hne]
    simp only [psub]
    rw [hmax, hmin, pvar, if_neg hnle, hvar0, sub_self, pdiv_zero_zero]
  rw [kVal, rList, hkeys]
  simp only [List.map_cons, List.map_nil]
  rw [hgen 0 hl0, hgen 1 hl1, pmaxList_nan_nan, pminList_nan_nan]
  rfl

/-- The non-NaN entries of a keyed value list, with their finite values.
In the get_feature pipeline no +inf survives, so only numbers remain. -/
def extractNums : List (String × PVal) → List (String × ℚ)
  | [] => []
  | (nm, PVal.num q) :: t => (nm, q) :: extractNums t
  | (_, _) :: t => extractNums t

lemma idxmax_extract (l : List (String × PVal)) (hl : ∀ p ∈ l, p.2 ≠ PVal.pinf) :
    idxmaxAux none l = spec_argmaxAux none (extractNums l)
    ∧ ∀ (bn : String) (bv : ℚ),
        idxmaxAux (some (bn, PVal.num bv)) l
          = spec_argmaxAux (some (bn, bv)) (extractNums l) := by
  induction l with
  | nil => exact ⟨rfl, fun bn bv => rfl⟩
  | cons p t ih =>
    have hlt : ∀ q ∈ t, q.2 ≠ PVal.pinf := fun q hq => hl q (List.mem_cons_of_mem p hq)
    obtain ⟨ihn, ihs⟩ := ih hlt
    obtain ⟨nm, v⟩ := p
    match v with
    | PVal.nan =>
      constructor
      · simp only [idxmaxAux, extractNums]
        exact ihn
      · intro bn bv
        simp only [idxmaxAux, extractNums]
        exact ihs bn bv
    | PVal.pinf =>
      exact absurd rfl (hl (nm, PVal.pinf) (List.mem_cons_self _ t))
    | PVal.num q =>
      constructor
      · simp only [idxmaxAux, extractNums, spec_argmaxAux]
        exact ihs nm q
      · intro bn bv
        simp only [idxmaxAux, extractNums, spec_argmaxAux, pleB]
        by_cases h : q ≤ bv
        · rw [if_pos (decide_eq_true h), if_pos h]
          exact ihs bn bv
        · rw [if_neg (by simp [h]), if_neg h]
          exact ihs nm q

lemma extract_map (df : NumFrame) (ps : List (ℕ × String))
    (hps : ∀ p ∈ ps, (p.2 = "CLASS" → kVal df p.1 = PVal.nan)
      ∧ (p.2 ≠ "CLASS" → kVal df p.1 = PVal.num (spec_K df p.1))) :
    extractNums (ps.map (fun p => (p.2, kVal df p.1)))
      = (ps.filter (fun p => decide (p.2 ≠ "CLASS"))).map
          (fun p => (p.2, spec_K df p.1)) := by
  induction ps with
  | nil => rfl
  | cons p t ih =>
    have hpt := hps p (List.mem_cons_self p t)
    have iht := ih (fun q hq => hps q (List.mem_cons_of_mem p hq))
    by_cases h : p.2 = "CLASS"
    · rw [List.map_cons, hpt.1 h]
      simp only [extractNums]
      rw [iht, List.filter_cons]
      simp [h]
    · rw [List.map_cons, hpt.2 h]
      simp only [extractNums]
      rw [iht, List.filter_cons]
      simp [h]

lemma get_feature_eq_spec (df : NumFrame)
    (hn : df.cols.Nodup) (hC : "CLASS" ∈ df.cols)
    (hbin : ∀ r ∈ df.rows, classOfRow df r = 0 ∨ classOfRow df r = 1)
    (h0 : 2 ≤ (groupRows df 0).length) (h1 : 2 ≤ (groupRows df 1).length)
    (hvar : ∀ j, j < df.cols.length → df.cols.getD j "" ≠ "CLASS" →
      0 < sampleVar (colOf (groupRows df 0) j)
        ∧ 0 < sampleVar (colOf (groupRows df 1) j)) :
    get_feature df = spec_get_feature df := by
  have hex0 : ∃ r ∈ df.rows, classOfRow df r = 0 := by
    obtain ⟨r, hr⟩ := exists_mem_of_two_le _ h0
    obtain ⟨hmem, hcl⟩ := group_mem_class df 0 r hr
    exact ⟨r, hmem, hcl⟩
  have hex1 : ∃ r ∈ df.rows, classOfRow df r = 1 := by
    obtain ⟨r, hr⟩ := exists_mem_of_two_le _ h1
    obtain ⟨hmem, hcl⟩ := group_mem_class df 1 r hr
    exact ⟨r, hmem, hcl⟩
  have hkeys := groupKeys_binary df hbin hex0 hex1
  have hpoint : ∀ p ∈ df.cols.enum,
      (p.2 = "CLASS" → kVal df p.1 = PVal.nan)
      ∧ (p.2 ≠ "CLASS" → kVal df p.1 = PVal.num (spec_K df p.1)) := by
    intro p hp
    have hsome : df.cols[p.1]? = some p.2 := List.mem_enum_iff_getElem?.mp hp
    have hlt : p.1 < df.cols.length := by
      by_contra hc
      rw [List.getElem?_eq_none (le_of_not_lt hc)] at hsome
      cases hsome
    have hget : df.cols[p.1] = p.2 := by
      rw [List.getElem?_eq_getElem hlt] at hsome
      exact Option.some.inj hsome
    constructor
    · intro hcl
      have hj : p.1 = classIdx df := by
        rw [classIdx, ← hcl, ← hget]
        exact (List.indexOf_getElem hn p.1 hlt).symm
      rw [hj]
      exact kVal_class df hkeys h0 h1
    · intro hcl
      have hgetD : df.cols.getD p.1 "" ≠ "CLASS" := by
        rw [List.getD_eq_getElem _ _ hlt, hget]
        exact hcl
      exact kVal_feature df p.1 hkeys h0 h1
        (hvar p.1 hlt hgetD).1 (hvar p.1 hlt hgetD).2
  have hnopinf : ∀ q ∈ (df.cols.enum.map (fun p => (p.2, kVal df p.1))),
      q.2 ≠ PVal.pinf := by
    intro q hq
    rw [List.mem_map] at hq
    obtain ⟨p, hp, rfl⟩ := hq
    by_cases h : p.2 = "CLASS"
    · rw [show (p.2, kVal df p.1).2 = kVal df p.1 from rfl, (hpoint p hp).1 h]
      simp
    · rw [show (p.2, kVal df p.1).2 = kVal df p.1 from rfl, (hpoint p hp).2 h]
      simp
  rw [get_feature, (idxmax_extract _ hnopinf).1, extract_map df _ hpoint,
    spec_get_feature]

/-- The 7-row worked-example table of get_feature. -/
def exampleGF : NumFrame :=
  { cols := ["A", "B", "C", "CLASS"]
    rows := [("0", [1/10, 2/10, 1/10, 0]), ("1", [5, 10, 20, 0]), ("2", [2/10, 3/10, 5/10, 1]),
             ("3", [3/10, 2/10, 7/10, 0]), ("4", [-1/10, -2/10, -4/10, 1]),
             ("5", [1/10, 4/10, 3/10, 0]), ("6", [-5/10, 3/10, -2/10, 0])] }

/-- The class-0 group of the example. -/
def exampleGF_group0 : List (String × List ℚ) :=
  [("0", [1/10, 2/10, 1/10, 0]), ("1", [5, 10, 20, 0]), ("3", [3/10, 2/10, 7/10, 0]),
   ("5", [1/10, 4/10, 3/10, 0]), ("6", [-5/10, 3/10, -2/10, 0])]

/-- The class-1 group of the example. -/
def exampleGF_group1 : List (String × List ℚ) :=
  [("2", [2/10, 3/10, 5/10, 1]), ("4", [-1/10, -2/10, -4/10, 1])]

lemma exampleGF_classOfRow :
    ∀ r : String × List ℚ, classOfRow exampleGF r = r.2.getD 3 0 := by
  intro r
  rw [classOfRow, show classIdx exampleGF = 3 from rfl]

lemma exampleGF_g0 : groupRows exampleGF 0 = exampleGF_group0 := by
  rw [groupRows]
  simp only [exampleGF_classOfRow]
  rw [show exampleGF.rows
      = [("0", [1/10, 2/10, 1/10, 0]), ("1", [5, 10, 20, 0]), ("2", [2/10, 3/10, 5/10, 1]),
         ("3", [3/10, 2/10, 7/10, 0]), ("4", [-1/10, -2/10, -4/10, 1]),
         ("5", [1/10, 4/10, 3/10, 0]), ("6", [-5/10, 3/10, -2/10, 0])] from rfl]
  norm_num [List.filter, exampleGF_group0]

lemma exampleGF_g1 : groupRows exampleGF 1 = exampleGF_group1 := by
  rw [groupRows]
  simp only [exampleGF_classOfRow]
  rw [show exampleGF.rows
      = [("0", [1/10, 2/10, 1/10, 0]), ("1", [5, 10, 20, 0]), ("2", [2/10, 3/10, 5/10, 1]),
         ("3", [3/10, 2/10, 7/10, 0]), ("4", [-1/10, -2/10, -4/10, 1]),
         ("5", [1/10, 4/10, 3/10, 0]), ("6", [-5/10, 3/10, -2/10, 0])] from rfl]
  norm_num [List.filter, exampleGF_group1]

lemma exampleGF_var00 : sampleVar (colOf (groupRows exampleGF 0) 0) = 509/100 := by
  rw [exampleGF_g0, show colOf exampleGF_group0 0 = [1/10, 5, 3/10, 1/10, -5/10] from rfl]
  norm_num [sampleVar, listMean]

lemma exampleGF_var01 : sampleVar (colOf (groupRows exampleGF 0) 1) = 9461/500 := by
  rw [exampleGF_g0, show colOf exampleGF_group0 1 = [2/10, 10, 2/10, 4/10, 3/10] from rfl]
  norm_num [sampleVar, listMean]

lemma exampleGF_var02 : sampleVar (colOf (groupRows exampleGF 0) 2) = 78317/1000 := by
  rw [exampleGF_g0, show colOf exampleGF_group0 2 = [1/10, 20, 7/10, 3/10, -2/10] from rfl]
  norm_num [sampleVar, listMean]

lemma exampleGF_var10 : sampleVar (colOf (groupRows exampleGF 1) 0) = 9/200 := by
  rw [exampleGF_g1, show colOf exampleGF_group1 0 = [2/10, -1/10] from rfl]
  norm_num [sampleVar, listMean]

lemma exampleGF_var11 : sampleVar (colOf (groupRows exampleGF 1) 1) = 1/8 := by
  rw [exampleGF_g1, show colOf exampleGF_group1 1 = [3/10, -2/10] from rfl]
  norm_num [sampleVar, listMean]

lemma exampleGF_var12 : sampleVar (colOf (groupRows exampleGF 1) 2) = 81/200 := by
  rw [exampleGF_g1, show colOf exampleGF_group1 2 = [5/10, -4/10] from rfl]
  norm_num [sampleVar, listMean]

lemma exampleGF_K0 : spec_K exampleGF 0 = 1018/165 := by
  rw [spec_K, exampleGF_g0, exampleGF_g1,
    show colOf exampleGF_group0 0 = [1/10, 5, 3/10, 1/10, -5/10] from rfl,
    show colOf exampleGF_group1 0 = [2/10, -1/10] from rfl,
    show spec_R [1/10, 5, 3/10, 1/10, -5/10] = 550/509 from by
      norm_num [spec_R, listMaxQ, listMinQ, sampleVar, listMean, List.foldl, max_def, min_def],
    show spec_R [2/10, -1/10] = 20/3 from by
      norm_num [spec_R, listMaxQ, listMinQ, sampleVar, listMean, List.foldl, max_def, min_def]]
  norm_num [max_def, min_def]

lemma exampleGF_K1 : spec_K exampleGF 1 = 9461/1225 := by
  rw [spec_K, exampleGF_g0, exampleGF_g1,
    show colOf exampleGF_group0 1 = [2/10, 10, 2/10, 4/10, 3/10] from rfl,
    show colOf exampleGF_group1 1 = [3/10, -2/10] from rfl,
    show spec_R [2/10, 10, 2/10, 4/10, 3/10] = 4900/9461 from by
      norm_num [spec_R, listMaxQ, listMinQ, sampleVar, listMean, List.foldl, max_def, min_def],
    show spec_R [3/10, -2/10] = 4 from by
      norm_num [spec_R, listMaxQ, listMinQ, sampleVar, listMean, List.foldl, max_def, min_def]]
  norm_num [max_def, min_def]

lemma exampleGF_K2 : spec_K exampleGF 2 = 78317/9090 := by
  rw [spec_K, exampleGF_g0, exampleGF_g1,
    show colOf exampleGF_group0 2 = [1/10, 20, 7/10, 3/10, -2/10] from rfl,
    show colOf exampleGF_group1 2 = [5/10, -4/10] from rfl,
    show spec_R [1/10, 20, 7/10, 3/10, -2/10] = 20200/78317 from by
      norm_num [spec_R, listMaxQ, listMinQ, sampleVar, listMean, List.foldl, max_def, min_def],
    show spec_R [5/10, -4/10] = 20/9 from by
      norm_num [spec_R, listMaxQ, listMinQ, sampleVar, listMean, List.foldl, max_def, min_def]]
  norm_num [max_def, min_def]

lemma exampleGF_spec : spec_get_feature exampleGF = some "C" := by
  rw [spec_get_feature]
  rw [show (exampleGF.cols.enum.filter (fun p => decide (p.2 ≠ "CLASS")))
      = [(0, "A"), (1, "B"), (2, "C")] from rfl]
  simp only [List.map_cons, List.map_nil, exampleGF_K0, exampleGF_K1, exampleGF_K2]
  norm_num [spec_argmaxAux]

lemma exampleGF_hyp_nodup : exampleGF.cols.Nodup := by decide

lemma exampleGF_hyp_mem : "CLASS" ∈ exampleGF.cols := by decide

lemma exampleGF_hyp_bin :
    ∀ r ∈ exampleGF.rows, classOfRow exampleGF r = 0 ∨ classOfRow exampleGF r = 1 := by
  intro r hr
  rw [exampleGF_classOfRow]
  fin_cases hr <;> norm_num

lemma exampleGF_hyp_len0 : 2 ≤ (groupRows exampleGF 0).length := by
  rw [exampleGF_g0]
  norm_num [exampleGF_group0]

lemma exampleGF_hyp_len1 : 2 ≤ (groupRows exampleGF 1).length := by
  rw [exampleGF_g1]
  norm_num [exampleGF_group1]

lemma exampleGF_hyp_var :
    ∀ j, j < exampleGF.cols.length → exampleGF.cols.getD j "" ≠ "CLASS" →
      0 < sampleVar (colOf (groupRows exampleGF 0) j)
        ∧ 0 < sampleVar (colOf (groupRows exampleGF 1) j) := by
  intro j hj hne
  rw [show exampleGF.cols.length = 4 from rfl] at hj
  interval_cases j
  · rw [exampleGF_var00, exampleGF_var10]
    norm_num
  · rw [exampleGF_var01, exampleGF_var11]
    norm_num
  · rw [exampleGF_var02, exampleGF_var12]
    norm_num
  · exact absurd rfl hne

/-- C2: for a frame of numeric feature columns plus a binary CLASS
column, with at least two rows in each class and positive per-class
variance for every feature, get_feature returns the name of the feature
column (CLASS excluded) whose K = max(R_0, R_1) / min(R_0, R_1) is
largest, where R_c = (max - min) / variance within class c; ties break
to the first column in original order; and on the 7-row worked example
it returns "C". -/
theorem get_feature_spec (df : NumFrame)
    (hn : df.cols.Nodup) (hC : "CLASS" ∈ df.cols)
    (hbin : ∀ r ∈ df.rows, classOfRow df r = 0 ∨ classOfRow df r = 1)
    (h0 : 2 ≤ (groupRows df 0).length) (h1 : 2 ≤ (groupRows df 1).length)
    (hvar : ∀ j, j < df.cols.length → df.cols.getD j "" ≠ "CLASS" →
      0 < sampleVar (colOf (groupRows df 0) j)
        ∧ 0 < sampleVar (colOf (groupRows df 1) j)) :
    get_feature df = spec_get_feature df
    ∧ get_feature exampleGF = some "C" :=
  ⟨get_feature_eq_spec df hn hC hbin h0 h1 hvar,
   by
    rw [get_feature_eq_spec exampleGF exampleGF_hyp_nodup exampleGF_hyp_mem
      exampleGF_hyp_bin exampleGF_hyp_len0 exampleGF_hyp_len1 exampleGF_hyp_var]
    exact exampleGF_spec⟩

theorem get_feature_spec_witness :
    (exampleGF.cols.Nodup ∧ "CLASS" ∈ exampleGF.cols
      ∧ (∀ r ∈ exampleGF.rows, classOfRow exampleGF r = 0 ∨ classOfRow exampleGF r = 1)
      ∧ 2 ≤ (groupRows exampleGF 0).length ∧ 2 ≤ (groupRows exampleGF 1).length
      ∧ (∀ j, j < exampleGF.cols.length → exampleGF.cols.getD j "" ≠ "CLASS" →
          0 < sampleVar (colOf (groupRows exampleGF 0) j)
            ∧ 0 < sampleVar (colOf (groupRows exampleGF 1) j)))
    ∧ (get_feature exampleGF = spec_get_feature exampleGF
       ∧ get_feature exampleGF = some "C") :=
  ⟨⟨exampleGF_hyp_nodup, exampleGF_hyp_mem, exampleGF_hyp_bin, exampleGF_hyp_len0,
     exampleGF_hyp_len1, exampleGF_hyp_var⟩,
   get_feature_spec exampleGF exampleGF_hyp_nodup exampleGF_hyp_mem exampleGF_hyp_bin
     exampleGF_hyp_len0 exampleGF_hyp_len1 exampleGF_hyp_var⟩
